import Mathlib

/-
  Verification of the TEFS (Tiny Embedded File System) core, generation 2
  (src/tefs/tefs.c), against its natural-language specification.

  Shallow embedding conventions:
  * machine integers are modelled as Nat with explicit truncation (u16 / u32)
    at the points where the C code stores into a fixed-width field or casts;
  * the block device (an external collaborator per spec paragraph 6.2) is a
    byte-addressable page store.  Reads are fallible: the device carries a
    read counter and a predicate saying which reads fail (modelling transient
    device errors surfaced as nonzero driver return codes).  Writes are
    modelled as infallible and are recorded in an event log, preserving the
    order in which the core emits them;
  * C out-parameters that a callee may leave unassigned are modelled as
    Option results; the caller substitutes the variable's previous value
    when the callee did not assign (Option.getD);
  * the sd_spi_dirty_write hint only tells the driver that a destination
    page need not be read back before being overwritten; it never changes
    the bytes that end up stored, so it is not modelled;
  * functions return their int8_t status as a Nat (the TEFS_ERR_* codes),
    together with the updated global state and out-parameters.
-/

namespace TEFS

/-! ## Error codes (tefs.h) -/

def TEFS_ERR_OK : ℕ := 0
def TEFS_ERR_READ : ℕ := 1
def TEFS_ERR_WRITE : ℕ := 2
def TEFS_ERR_ERASE : ℕ := 3
def TEFS_ERR_DEVICE_FULL : ℕ := 4
def TEFS_ERR_FILE_FULL : ℕ := 5
def TEFS_ERR_FILE_NOT_FOUND : ℕ := 6
def TEFS_ERR_UNRELEASED_BLOCK : ℕ := 7
def TEFS_ERR_NOT_FORMATTED : ℕ := 8
def TEFS_ERR_WRITE_PAST_END : ℕ := 9
def TEFS_ERR_EOF : ℕ := 10
def TEFS_ERR_FILE_NAME_TOO_LONG : ℕ := 11
def TEFS_NEW_FILE : ℕ := 12

/-- Artificial status used by the embedding alone when the fuel of a
    modelled unbounded loop runs out; no theorem relies on it. -/
def TEFS_MODEL_OUT_OF_FUEL : ℕ := 100

def TEFS_EMPTY : ℕ := 0
def TEFS_DELETED : ℕ := 1
def TEFS_IN_USE : ℕ := 2
def TEFS_CHECK_FLAG : ℕ := 0xFC

def TEFS_INFO_SECTION_SIZE : ℕ := 1
def TEFS_DIR_STATUS_SIZE : ℕ := 1
def TEFS_DIR_EOF_PAGE_SIZE : ℕ := 4
def TEFS_DIR_EOF_BYTE_SIZE : ℕ := 2
def TEFS_DIR_ROOT_INDEX_ADDRESS_SIZE : ℕ := 4
def TEFS_DIR_STATIC_DATA_SIZE : ℕ := 11

/-! ## Fixed-width truncations and the bit macros of tefs.h -/

def u8 (x : ℕ) : ℕ := x % 256
def u16 (x : ℕ) : ℕ := x % 65536
def u32 (x : ℕ) : ℕ := x % 4294967296

def POW_2_TO (e : ℕ) : ℕ := 1 <<< e
def MULT_BY_POW_2_EXP (x e : ℕ) : ℕ := x <<< e
def DIV_BY_POW_2_EXP (x e : ℕ) : ℕ := x >>> e
def MOD_BY_POW_2 (x c : ℕ) : ℕ := x &&& (c - 1)

/-! ## Little-endian multi-byte values -/

def toLE : ℕ → ℕ → List ℕ
  | 0, _ => []
  | n + 1, v => (v % 256) :: toLE n (v / 256)

def fromLE : List ℕ → ℕ
  | [] => 0
  | b :: bs => b % 256 + 256 * fromLE bs

/-! ## The block device (spec section 6.2) -/

/-- One logged write event: destination page, byte offset, bytes stored. -/
structure DevWrite where
  page : ℕ
  off : ℕ
  bytes : List ℕ
deriving DecidableEq, Repr

structure Device where
  /-- Byte content: page number, byte offset in page, byte value. -/
  mem : ℕ → ℕ → ℕ
  /-- Which reads (by ordinal) fail with a driver error. -/
  failAt : ℕ → Bool
  /-- Number of reads issued so far. -/
  readCount : ℕ
  /-- Ordered log of the write events issued so far (most recent first). -/
  log : List DevWrite

def device_write (d : Device) (page off : ℕ) (data : List ℕ) : Device :=
  { d with
    mem := fun p b =>
      if p = page ∧ off ≤ b ∧ b < off + data.length then (data.getD (b - off) 0) % 256
      else d.mem p b
    log := ⟨page, off, data⟩ :: d.log }

def Device.readBytes (d : Device) (page off len : ℕ) : List ℕ :=
  (List.range len).map fun i => d.mem page (off + i) % 256

def device_read (d : Device) (page off len : ℕ) : Device × Option (List ℕ) :=
  if d.failAt d.readCount then ({ d with readCount := d.readCount + 1 }, none)
  else ({ d with readCount := d.readCount + 1 }, some (d.readBytes page off len))

/-- Flush only forces buffered bytes to the medium; the stored content is
    already reflected in mem, so it is the identity here. -/
def device_flush (d : Device) : Device := d

/-- Convenience: write a little-endian integer value of the given width. -/
def device_write_num (d : Device) (page off len v : ℕ) : Device :=
  device_write d page off (toLE len v)

/-- Convenience: read a little-endian integer value of the given width. -/
def device_read_num (d : Device) (page off len : ℕ) : Device × Option ℕ :=
  match device_read d page off len with
  | (d', none) => (d', none)
  | (d', some bs) => (d', some (fromLE bs))

/-! ## file_t and the global mount state (the static variables of tefs.c) -/

structure file_t where
  root_index_block_address : ℕ := 0
  child_index_block_address : ℕ := 0
  data_block_address : ℕ := 0
  data_block_number : ℕ := 0
  current_page_number : ℕ := 0
  directory_page : ℕ := 0
  directory_byte : ℕ := 0
  eof_page : ℕ := 0
  eof_byte : ℕ := 0
  is_file_size_consistent : ℕ := 0
deriving Repr

structure FS where
  dev : Device
  state_section_bit : ℕ
  state_section_size : ℕ
  is_block_pool_empty : ℕ
  number_of_pages : ℕ
  page_size : ℕ
  addresses_per_block : ℕ
  block_size : ℕ
  address_size : ℕ
  page_size_exponent : ℕ
  addresses_per_block_exponent : ℕ
  block_size_exponent : ℕ
  address_size_exponent : ℕ
  hash_size : ℕ
  metadata_size : ℕ
  max_file_name_size : ℕ
  metadata : file_t
  hash_entries : file_t

/-! ## tefs_power_of_two_exponent -/

/-- Loop body of tefs_power_of_two_exponent; the fuel bounds the number of
    halvings and is passed as the number itself, which always suffices. -/
def tefs_power_of_two_exponent_loop : ℕ → ℕ → ℕ → ℕ
  | 0, _, position => position
  | fuel + 1, number, position =>
      if number % 2 = 0 ∧ number > 1 then
        tefs_power_of_two_exponent_loop fuel (number / 2) (position + 1)
      else position

def tefs_power_of_two_exponent (number : ℕ) : ℕ :=
  tefs_power_of_two_exponent_loop number number 0

/-! ## hash_string (tefs.c lines 1996-2022)

    The C reads the characters through an int8_t, so a byte b >= 0x80 enters
    the XOR sign-extended to 32 bits. -/

def int8_as_u32 (b : ℕ) : ℕ :=
  if b % 256 < 128 then b % 256 else 4294967040 + b % 256

def hash_loop : ℕ → List ℕ → ℕ
  | hash, [] => hash
  | hash, c :: rest =>
      if c % 256 = 0 then hash
      else hash_loop (u32 ((hash <<< 5) + hash) ^^^ int8_as_u32 c) rest

def hash_string (str : List ℕ) (hash_size : ℕ) : ℕ :=
  let hash := hash_loop 5381 str
  let hash := if hash = 0 then 1 else hash
  if hash_size = 4 then hash else hash % 65521

/-- Modelled from the spec's words (section 4.3, Hash function), for
    comparison with the source's hash_string: DJB2a over plain byte values
    (h = 5381; per byte h = (h*33) XOR b, on 32 bits), a zero hash coerced
    to 1, and for a 2-byte hash size the value reduced modulo 65521. -/
def djb2a_spec (bytes : List ℕ) (hash_size : ℕ) : ℕ :=
  let h := bytes.foldl (fun h b => u32 (h * 33) ^^^ b % 256) 5381
  let h := if h = 0 then 1 else h
  if hash_size = 4 then h else h % 65521

/-! ## tefs_find_next_empty_block (tefs.c lines 1682-1726) -/

/-- Outcome of scanning the bytes of one state-section page. -/
inductive ScanOutcome where
  | found (bit : ℕ)
  | nextPage
  | readErr
deriving DecidableEq, Repr

/-- The mask loop inside tefs_find_next_empty_block: position of the first
    set bit of a byte, counting from the most significant bit.  The mask
    starts at 0x80 and is shifted right each iteration, so 8 steps of fuel
    reproduce the loop exactly (after 8 shifts the mask is 0 and the C loop
    stops). -/
def msb_mask_loop : ℕ → ℕ → ℕ → ℕ → ℕ
  | 0, _, _, count => count
  | fuel + 1, byte_buffer, mask, count =>
      if mask ≠ 0 ∧ byte_buffer &&& mask = 0 then
        msb_mask_loop fuel byte_buffer (mask >>> 1) (count + 1)
      else count

def msb_mask_count (byte_buffer : ℕ) : ℕ :=
  msb_mask_loop 8 byte_buffer 0x80 0

/-- Inner while loop of tefs_find_next_empty_block: scan the bytes of
    state-section page current_page starting at current_byte.  The fuel is
    page_size - current_byte, the exact remaining iteration count of the
    loop condition current_byte < page_size. -/
def fneb_scan_bytes (fs : FS) (current_page : ℕ) : ℕ → ℕ → FS × ScanOutcome
  | _, 0 => (fs, .nextPage)
  | current_byte, fuel + 1 =>
      match device_read fs.dev (current_page + 1) current_byte 1 with
      | (dev, none) => ({ fs with dev }, .readErr)
      | (dev, some bs) =>
          let byte_buffer := fromLE bs
          if byte_buffer ≠ 0 then
            ({ fs with dev },
              .found (MULT_BY_POW_2_EXP current_page (fs.page_size_exponent + 3) +
                MULT_BY_POW_2_EXP current_byte 3 + msb_mask_count byte_buffer))
          else fneb_scan_bytes { fs with dev } current_page (current_byte + 1) fuel

/-- Outer while loop of tefs_find_next_empty_block over state-section
    pages; the fuel is state_section_size - current_page, the exact
    remaining iteration count of current_page < state_section_size.
    When the loop ends without finding a set bit, is_block_pool_empty is
    set. -/
def fneb_scan_pages (fs : FS) : ℕ → ℕ → ℕ → FS × Option ℕ × ℕ
  | _, _, 0 => ({ fs with is_block_pool_empty := 1 }, none, TEFS_ERR_OK)
  | current_page, current_byte, fuelPages + 1 =>
      match fneb_scan_bytes fs current_page current_byte (fs.page_size - current_byte) with
      | (fs, .readErr) => (fs, none, TEFS_ERR_READ)
      | (fs, .found bit) => (fs, some bit, TEFS_ERR_OK)
      | (fs, .nextPage) => fneb_scan_pages fs (current_page + 1) 0 fuelPages

/-- tefs_find_next_empty_block: returns the updated state, the (possibly
    unchanged) value of the state_section_bit out-parameter, and the
    status. -/
def tefs_find_next_empty_block (fs : FS) (state_section_bit : ℕ) : FS × ℕ × ℕ :=
  let current_page := DIV_BY_POW_2_EXP (DIV_BY_POW_2_EXP state_section_bit 3) fs.page_size_exponent
  let current_byte := u16 (MOD_BY_POW_2 (DIV_BY_POW_2_EXP state_section_bit 3) fs.page_size)
  match fneb_scan_pages fs current_page current_byte (fs.state_section_size - current_page) with
  | (fs', some bit, st) => (fs', bit, st)
  | (fs', none, st) => (fs', state_section_bit, st)

/-! ## tefs_reserve_device_block (tefs.c lines 1500-1564)

    The C function's uint32_t *block_address out-parameter is assigned only
    on the path that actually reserves a block; the Option result is none
    exactly when the C code returns without assigning it. -/

def tefs_reserve_device_block (fs : FS) : FS × Option ℕ × ℕ :=
  if fs.is_block_pool_empty ≠ 0 then (fs, none, TEFS_ERR_DEVICE_FULL)
  else
    let state_page :=
      DIV_BY_POW_2_EXP (DIV_BY_POW_2_EXP fs.state_section_bit 3) fs.page_size_exponent + 1
    let state_off := u16 (MOD_BY_POW_2 (DIV_BY_POW_2_EXP fs.state_section_bit 3) fs.page_size)
    match device_read fs.dev state_page state_off 1 with
    | (dev, none) => ({ fs with dev }, none, TEFS_ERR_READ)
    | (dev, some bs) =>
        let byte_buffer := fromLE bs
        let fs := { fs with dev }
        if byte_buffer &&& POW_2_TO (7 - MOD_BY_POW_2 fs.state_section_bit 8) = 0 then
          (fs, none, TEFS_ERR_OK)
        else
          let byte_buffer := byte_buffer &&& (255 - POW_2_TO (7 - MOD_BY_POW_2 fs.state_section_bit 8))
          let fs := { fs with dev := device_write fs.dev state_page state_off [byte_buffer] }
          let block_address :=
            MULT_BY_POW_2_EXP fs.state_section_bit fs.block_size_exponent + (1 + fs.state_section_size)
          let fs := { fs with state_section_bit := fs.state_section_bit + 1 }
          match tefs_find_next_empty_block fs fs.state_section_bit with
          | (fs', newBit, response) =>
              let fs' := { fs' with state_section_bit := newBit }
              if response ≠ 0 then (fs', some block_address, response)
              else ({ fs' with dev := device_flush fs'.dev }, some block_address, TEFS_ERR_OK)

/-! ## Observation helpers for the allocator claims -/

/-- A device none of whose reads fail. -/
def ErrorFree (d : Device) : Prop := ∀ n, d.failAt n = false

/-- Advance the read counter (the only change a successful read makes). -/
def Device.bumpReads (d : Device) (n : ℕ) : Device :=
  { d with readCount := d.readCount + n }

/-- Whether state-section bit j is set, exactly as the allocator addresses
    it: bit j lives in byte j/8, stored at page (j/8)/page_size + 1, byte
    offset (j/8) % page_size, at position j%8 counting from the most
    significant bit. -/
def state_bit_b (d : Device) (pse : ℕ) (j : ℕ) : Bool :=
  ((d.mem (j / 8 / 2 ^ pse + 1) (j / 8 % 2 ^ pse) % 256) &&& 2 ^ (7 - j % 8)) != 0

/-- Modelled from the spec's words (section 4.1): the next 1-bit found when
    scanning the state section (state_section_size pages of page_size = 2^pse
    bytes) forward from bit index start. -/
def least_set_bit (d : Device) (pse S start : ℕ) : Option ℕ :=
  (List.range (8 * 2 ^ pse * S)).find? fun j => decide (start ≤ j) && state_bit_b d pse j

/-- Two states that agree on every mount-time parameter and on the
    metadata file handle; every tefs call preserves this relation on the
    geometric fields, and calls that do not touch the metadata file also
    preserve the metadata component. -/
def sameGeometry (a b : FS) : Prop :=
  a.page_size = b.page_size ∧ a.addresses_per_block = b.addresses_per_block ∧
  a.block_size = b.block_size ∧ a.address_size = b.address_size ∧
  a.page_size_exponent = b.page_size_exponent ∧
  a.addresses_per_block_exponent = b.addresses_per_block_exponent ∧
  a.block_size_exponent = b.block_size_exponent ∧
  a.address_size_exponent = b.address_size_exponent ∧
  a.max_file_name_size = b.max_file_name_size ∧
  a.metadata = b.metadata

/-- An error-free device whose bytes are all zero. -/
def zeroDevice : Device :=
  { mem := fun _ _ => 0, failAt := fun _ => false, readCount := 0, log := [] }

/-- An allocator state in which the state-section bit at the cursor is
    already 0 (every state byte is 0) while is_block_pool_empty is unset:
    page_size 4 (exponent 2), block_size 2 (exponent 1), state section of
    one page, cursor at bit 0. -/
def c9_state : FS :=
  { dev := zeroDevice
    state_section_bit := 0
    state_section_size := 1
    is_block_pool_empty := 0
    number_of_pages := 256
    page_size := 4
    addresses_per_block := 4
    block_size := 2
    address_size := 2
    page_size_exponent := 2
    addresses_per_block_exponent := 2
    block_size_exponent := 1
    address_size_exponent := 1
    hash_size := 2
    metadata_size := 16
    max_file_name_size := 5
    metadata := {}
    hash_entries := {} }

/-- Same shape of allocator state as c9_state but with a larger page size
    and a nonzero cursor, used as the concrete counterexample input of
    claim C6. -/
def c6_cex_state : FS :=
  { dev := zeroDevice
    state_section_bit := 3
    state_section_size := 2
    is_block_pool_empty := 0
    number_of_pages := 4096
    page_size := 8
    addresses_per_block := 8
    block_size := 2
    address_size := 2
    page_size_exponent := 3
    addresses_per_block_exponent := 3
    block_size_exponent := 1
    address_size_exponent := 1
    hash_size := 2
    metadata_size := 16
    max_file_name_size := 5
    metadata := {}
    hash_entries := {} }

/-- Concrete allocator state with a set bit at the cursor: state byte 0
    of the single state-section page is 0xF0, cursor at bit 0. -/
def c6_wit_state : FS :=
  { dev := { mem := fun p b => if p = 1 ∧ b = 0 then 240 else 0
             failAt := fun _ => false, readCount := 0, log := [] }
    state_section_bit := 0
    state_section_size := 1
    is_block_pool_empty := 0
    number_of_pages := 256
    page_size := 4
    addresses_per_block := 4
    block_size := 2
    address_size := 2
    page_size_exponent := 2
    addresses_per_block_exponent := 2
    block_size_exponent := 1
    address_size_exponent := 1
    hash_size := 2
    metadata_size := 16
    max_file_name_size := 5
    metadata := {}
    hash_entries := {} }

/-! ## The page-index coordinate maps (tefs.c lines 1729-1755) -/

/-- tefs_map_page_to_root_index_address: page of the root index holding the
    child pointer for the given file page, and the byte offset inside it. -/
def tefs_map_page_to_root_index_address (fs : FS) (page : ℕ) : ℕ × ℕ :=
  let child_block_number :=
    DIV_BY_POW_2_EXP (DIV_BY_POW_2_EXP page fs.block_size_exponent)
      fs.addresses_per_block_exponent
  (u16 (DIV_BY_POW_2_EXP child_block_number
      (fs.page_size_exponent - fs.address_size_exponent)),
   u16 (MOD_BY_POW_2 (MULT_BY_POW_2_EXP child_block_number fs.address_size_exponent)
      fs.addresses_per_block))

/-- tefs_map_page_to_child_index_address: page of the child index holding
    the data-block pointer for the given file page, and the byte offset
    inside it. -/
def tefs_map_page_to_child_index_address (fs : FS) (page : ℕ) : ℕ × ℕ :=
  let block_in_child_index :=
    MOD_BY_POW_2 (DIV_BY_POW_2_EXP page fs.block_size_exponent) fs.addresses_per_block
  (u16 (DIV_BY_POW_2_EXP block_in_child_index
      (fs.page_size_exponent - fs.address_size_exponent)),
   u16 (MOD_BY_POW_2 (MULT_BY_POW_2_EXP block_in_child_index fs.address_size_exponent)
      fs.page_size))

/-! ## tefs_write (tefs.c lines 863-1086) and tefs_read (lines 1111-1215)

    tefs_write can call itself once, on the metadata file, to record a newly
    allocated root index block in the file's directory entry; the mutual
    knot is tied below with a fuel parameter (tefs_write).  The
    UPDATE_FS_PAGE_CONSISTENCY / UPDATE_FS_RECORD_CONSISTENCY blocks are
    compiled out (neither macro is defined by the build), so they do not
    appear.  The is_new_page / sd_spi_dirty_write bookkeeping only hints the
    driver and never changes stored bytes, so it is not modelled. -/

/-- The root-index-block transition of tefs_write (lines 903-928), reached
    when the incremented eof_page equals block_size << (page_size_exponent -
    address_size_exponent + block_size_exponent): reserve a block for the
    root index (the out-parameter is the file's root_index_block_address
    field, assigned inside reserve before its status is checked), write the
    existing child index block address as the root's first entry, and record
    the new root address in the file's directory entry — directly on device
    page 0 for an internal file (directory_page 0xFFFFFFFF), through the
    nested metadata write otherwise.  recur performs that nested tefs_write
    on the metadata file.  Returns some status on an early return of
    tefs_write, none to fall through to the data phase. -/
def tefs_write_root_transition (recur : FS → ℕ → List ℕ → ℕ → FS × ℕ)
    (fs : FS) (f : file_t) : FS × file_t × Option ℕ :=
  let res := tefs_reserve_device_block fs
  let fs := res.1
  let f := { f with
    root_index_block_address := (res.2.1).getD f.root_index_block_address }
  if res.2.2 ≠ 0 then (fs, f, some res.2.2)
  else
    let fs := { fs with dev := (device_write_num fs.dev
        f.root_index_block_address 0 fs.address_size
        f.child_index_block_address) }
    if f.directory_page = 4294967295 then
      let fs := { fs with dev := (device_write_num fs.dev 0
          (u16 (f.directory_byte + fs.max_file_name_size +
            TEFS_DIR_STATUS_SIZE + TEFS_DIR_EOF_PAGE_SIZE +
            TEFS_DIR_EOF_BYTE_SIZE))
          fs.address_size f.root_index_block_address) }
      (fs, f, none)
    else
      let r := recur fs f.directory_page
          (toLE fs.address_size f.root_index_block_address)
          (u16 (f.directory_byte + fs.max_file_name_size +
            TEFS_DIR_STATUS_SIZE + TEFS_DIR_EOF_PAGE_SIZE +
            TEFS_DIR_EOF_BYTE_SIZE))
      if r.2 ≠ 0 then (r.1, f, some r.2) else (r.1, f, none)

/-- The end-of-file phase of tefs_write (lines 874-933): past-end checks,
    eof_byte / eof_page advancement, and the root-index-block transition.
    Returns some status on an early return, none to fall through to the
    data phase. -/
def tefs_write_eof_phase (recur : FS → ℕ → List ℕ → ℕ → FS × ℕ)
    (fs : FS) (f : file_t) (file_page_address number_of_bytes byte_offset : ℕ) :
    FS × file_t × Option ℕ :=
  if file_page_address = f.eof_page then
    if byte_offset > f.eof_byte then (fs, f, some TEFS_ERR_WRITE_PAST_END)
    else
      let f := if byte_offset + number_of_bytes > f.eof_byte then
          { f with eof_byte := u16 (byte_offset + number_of_bytes) } else f
      let f := { f with is_file_size_consistent := 0 }
      if f.eof_byte = fs.page_size then
        let f := { f with eof_byte := 0, eof_page := u32 (f.eof_page + 1) }
        if f.eof_page = MULT_BY_POW_2_EXP fs.block_size
            (fs.page_size_exponent - fs.address_size_exponent + fs.block_size_exponent) then
          tefs_write_root_transition recur fs f
        else (fs, f, none)
      else (fs, f, none)
  else if file_page_address > f.eof_page then (fs, f, some TEFS_ERR_WRITE_PAST_END)
  else (fs, f, none)

/-- Lines 957-1004 of the slow path: if the target page is not covered by
    the file's cached child index block, fetch the right child index block
    address from the root index (is_file_size_consistent nonzero) or
    allocate a fresh child index block and store its address into the root
    index (is_file_size_consistent zero).  Returns some status on an early
    return of tefs_write, none to continue. -/
def tefs_write_resolve_child (fs : FS) (f : file_t) (file_page_address : ℕ) :
    FS × file_t × Option ℕ :=
  let child_block_number := u16 (DIV_BY_POW_2_EXP file_page_address
      (fs.block_size_exponent + fs.addresses_per_block_exponent))
  if DIV_BY_POW_2_EXP f.data_block_number fs.addresses_per_block_exponent ≠
      child_block_number then
    let pr := tefs_map_page_to_root_index_address fs file_page_address
    if fs.block_size ≤ pr.1 then (fs, f, some TEFS_ERR_FILE_FULL)
    else
      let f := { f with child_index_block_address := 0 }
      if f.is_file_size_consistent ≠ 0 then
        match device_read fs.dev (f.root_index_block_address + pr.1) pr.2
            fs.address_size with
        | (dev, none) => ({ fs with dev }, f, some TEFS_ERR_READ)
        | (dev, some bs) =>
            ({ fs with dev }, { f with child_index_block_address := fromLE bs }, none)
      else
        match tefs_reserve_device_block fs with
        | (fs, optAddr, response) =>
            let f := { f with
              child_index_block_address := optAddr.getD f.child_index_block_address }
            if response ≠ 0 then (fs, f, some response)
            else
              let fs := { fs with dev := (device_write_num fs.dev
                  (f.root_index_block_address + pr.1) pr.2
                  fs.address_size f.child_index_block_address) }
              (fs, f, none)
  else (fs, f, none)

/-- Lines 1007-1044 of the slow path: fetch the data block address from the
    child index block (is_file_size_consistent nonzero) or allocate a fresh
    data block and store its address into the child index
    (is_file_size_consistent zero). -/
def tefs_write_resolve_data (fs : FS) (f : file_t) (file_page_address : ℕ) :
    FS × file_t × Option ℕ :=
  let pc := tefs_map_page_to_child_index_address fs file_page_address
  let f := { f with data_block_address := 0 }
  if f.is_file_size_consistent ≠ 0 then
    match device_read fs.dev (f.child_index_block_address + pc.1) pc.2
        fs.address_size with
    | (dev, none) => ({ fs with dev }, f, some TEFS_ERR_READ)
    | (dev, some bs) =>
        ({ fs with dev }, { f with data_block_address := fromLE bs }, none)
  else
    match tefs_reserve_device_block fs with
    | (fs, optAddr, response) =>
        let f := { f with
          data_block_address := optAddr.getD f.data_block_address }
        if response ≠ 0 then (fs, f, some response)
        else
          let fs := { fs with dev := (device_write_num fs.dev
              (f.child_index_block_address + pc.1) pc.2
              fs.address_size f.data_block_address) }
          (fs, f, none)

/-- The tail of the slow path after the child index block is resolved:
    resolve the data block address, then write the data at
    file->data_block_address (line 1048; no page offset within the block is
    added — see tefs_write_data_phase) and update the cached block
    number. -/
def tefs_write_after_child (fs : FS) (f : file_t) (file_page_address : ℕ)
    (data : List ℕ) (byte_offset : ℕ) : FS × file_t × ℕ :=
  match tefs_write_resolve_data fs f file_page_address with
  | (fs, f, some err) => (fs, f, err)
  | (fs, f, none) =>
      let fs := { fs with dev :=
          (device_write fs.dev f.data_block_address byte_offset data) }
      let f := { f with data_block_number :=
          (DIV_BY_POW_2_EXP file_page_address fs.block_size_exponent) }
      (fs, { f with current_page_number := file_page_address }, TEFS_ERR_OK)

/-- The data phase of tefs_write (lines 938-1085): either the fast path for
    a page in the cached data block, or the slow path resolving (and, when
    is_file_size_consistent is 0, allocating) the child index and data
    blocks.  At line 1048 the source writes the data at
    file->data_block_address with no MOD_BY_POW_2(file_page_address,
    block_size) page offset added, unlike the fast path at line 943; the
    model reproduces that byte-for-byte. -/
def tefs_write_data_phase (fs : FS) (f : file_t) (file_page_address : ℕ)
    (data : List ℕ) (byte_offset : ℕ) : FS × file_t × ℕ :=
  if file_page_address = f.current_page_number ∨
      DIV_BY_POW_2_EXP file_page_address fs.block_size_exponent = f.data_block_number then
    let fs := { fs with dev := (device_write fs.dev
        (f.data_block_address + MOD_BY_POW_2 file_page_address fs.block_size)
        byte_offset data) }
    (fs, { f with current_page_number := file_page_address }, TEFS_ERR_OK)
  else
    match tefs_write_resolve_child fs f file_page_address with
    | (fs, f, some err) => (fs, f, err)
    | (fs, f, none) => tefs_write_after_child fs f file_page_address data byte_offset

/-- One tefs_write call, given recur for the nested metadata write. -/
def tefs_writeF (recur : FS → ℕ → List ℕ → ℕ → FS × ℕ)
    (fs : FS) (f : file_t) (file_page_address : ℕ) (data : List ℕ)
    (byte_offset : ℕ) : FS × file_t × ℕ :=
  match tefs_write_eof_phase recur fs f file_page_address data.length byte_offset with
  | (fs, f, some st) => (fs, f, st)
  | (fs, f, none) => tefs_write_data_phase fs f file_page_address data byte_offset

/-- tefs_write with fuel bounding the nesting depth of the metadata-file
    recursion (depth 2 always suffices when metadata.directory_page is the
    internal marker 0xFFFFFFFF, as tefs_mount sets it). -/
def tefs_write : ℕ → FS → file_t → ℕ → List ℕ → ℕ → FS × file_t × ℕ
  | 0, fs, f, _, _, _ => (fs, f, TEFS_MODEL_OUT_OF_FUEL)
  | fuel + 1, fs, f, page, data, off =>
      tefs_writeF
        (fun fs p d o =>
          match tefs_write fuel fs fs.metadata p d o with
          | (fs', m', st) => ({ fs' with metadata := m' }, st))
        fs f page data off

/-- tefs_read (lines 1111-1215).  Returns the state, the updated file_t,
    the buffer out-parameter (none when the call returns before filling it)
    and the status. -/
def tefs_read (fs : FS) (f : file_t) (file_page_address number_of_bytes byte_offset : ℕ) :
    FS × file_t × Option (List ℕ) × ℕ :=
  if file_page_address = f.eof_page ∧ byte_offset > f.eof_byte then
    (fs, f, none, TEFS_ERR_EOF)
  else if file_page_address = f.eof_page ∧
      byte_offset + number_of_bytes > f.eof_byte then
    (fs, f, none, TEFS_ERR_EOF)
  else if file_page_address ≠ f.eof_page ∧ file_page_address > f.eof_page then
    (fs, f, none, TEFS_ERR_EOF)
  else if file_page_address = f.current_page_number ∨
      DIV_BY_POW_2_EXP file_page_address fs.block_size_exponent = f.data_block_number then
    match device_read fs.dev
        (f.data_block_address + MOD_BY_POW_2 file_page_address fs.block_size)
        byte_offset number_of_bytes with
    | (dev, none) => ({ fs with dev }, f, none, TEFS_ERR_READ)
    | (dev, some bs) =>
        ({ fs with dev }, { f with current_page_number := file_page_address },
          some bs, TEFS_ERR_OK)
  else
    let child_block_number := u16 (DIV_BY_POW_2_EXP file_page_address
        (fs.block_size_exponent + fs.addresses_per_block_exponent))
    let resolveChild : FS × file_t × Option ℕ :=
      if DIV_BY_POW_2_EXP f.data_block_number fs.addresses_per_block_exponent ≠
          child_block_number then
        let pr := tefs_map_page_to_root_index_address fs file_page_address
        if fs.block_size ≤ pr.1 then (fs, f, some TEFS_ERR_FILE_FULL)
        else
          let f := { f with child_index_block_address := 0 }
          match device_read fs.dev (f.root_index_block_address + pr.1) pr.2
              fs.address_size with
          | (dev, none) => ({ fs with dev }, f, some TEFS_ERR_READ)
          | (dev, some bs) =>
              ({ fs with dev }, { f with child_index_block_address := fromLE bs }, none)
      else (fs, f, none)
    match resolveChild with
    | (fs, f, some err) => (fs, f, none, err)
    | (fs, f, none) =>
        let pc := tefs_map_page_to_child_index_address fs file_page_address
        let f := { f with data_block_address := 0 }
        match device_read fs.dev (f.child_index_block_address + pc.1) pc.2
            fs.address_size with
        | (dev, none) => ({ fs with dev }, f, none, TEFS_ERR_READ)
        | (dev, some bs) =>
            let f := { f with data_block_address := fromLE bs }
            match device_read dev f.data_block_address byte_offset
                number_of_bytes with
            | (dev2, none) => ({ fs with dev := dev2 }, f, none, TEFS_ERR_READ)
            | (dev2, some buf) =>
                let f := { f with data_block_number :=
                    (DIV_BY_POW_2_EXP file_page_address fs.block_size_exponent) }
                ({ fs with dev := dev2 },
                  { f with current_page_number := file_page_address },
                  some buf, TEFS_ERR_OK)

/-! ## tefs_find_file_directory_entry (tefs.c lines 1364-1487)

    The directory lookup walks the hash-entries file in parallel with the
    metadata file.  All its device accesses go through tefs_read /
    tefs_write on the two internal file handles (fs.hash_entries,
    fs.metadata), which are threaded through the state.  wfuel is the fuel
    handed to the nested tefs_write calls of the create / remove
    operations. -/

/-- One character of a C string: the byte at index k, 0 (NUL) past the
    end. -/
def nameAt (name : List ℕ) (k : ℕ) : ℕ := name.getD k 0

/-- The file-name comparison loop (lines 1435-1445) after its first
    iteration: c is the character read last, count its index.  The loop
    re-reads while c and the name agree and neither string ended. -/
def ffde_name_cmp (name : List ℕ) (dp db : ℕ) :
    ℕ → FS → ℕ → ℕ → FS × Option (ℕ × ℕ) × ℕ
  | 0, fs, _, _ => (fs, none, TEFS_MODEL_OUT_OF_FUEL)
  | fuel + 1, fs, c, count =>
      if c ≠ 0 ∧ nameAt name count ≠ 0 ∧ c = nameAt name count ∧
          count < fs.max_file_name_size then
        match tefs_read fs fs.metadata dp 1
            (db + TEFS_DIR_STATIC_DATA_SIZE + (count + 1)) with
        | (fs1, m', ob, st) =>
            let fs := { fs1 with metadata := m' }
            if st ≠ 0 then (fs, none, st)
            else ffde_name_cmp name dp db fuel fs ((ob.getD []).getD 0 0) (count + 1)
      else (fs, some (c, count), TEFS_ERR_OK)

/-- The first iteration of the comparison loop (count = -1 in the C source:
    the loop condition holds unconditionally and the first character is
    read at name offset 0), followed by ffde_name_cmp. -/
def ffde_check_name (fuelN : ℕ) (fs : FS) (name : List ℕ) (dp db : ℕ) :
    FS × Option (ℕ × ℕ) × ℕ :=
  match tefs_read fs fs.metadata dp 1 (db + TEFS_DIR_STATIC_DATA_SIZE + 0) with
  | (fs1, m', ob, st) =>
      let fs := { fs1 with metadata := m' }
      if st ≠ 0 then (fs, none, st)
      else ffde_name_cmp name dp db fuelN fs ((ob.getD []).getD 0 0) 0

/-- Advance the parallel cursors (lines 1468-1485): the directory position
    by metadata_size with page carry, the hash position by hash_size with
    page carry. -/
def ffde_next (fs : FS) (cp cb dp db : ℕ) : ℕ × ℕ × ℕ × ℕ :=
  let dpb : ℕ × ℕ :=
    if db + fs.metadata_size ≥ fs.page_size then (u32 (dp + 1), 0)
    else (dp, u16 (db + fs.metadata_size))
  let cb := u16 (cb + fs.hash_size)
  if cb ≥ fs.page_size then (u16 (cp + 1), 0, dpb.1, dpb.2)
  else (cp, cb, dpb.1, dpb.2)

/-- The while(1) loop of tefs_find_file_directory_entry.  Arguments after
    the fuel: state, current_page, current_byte, dir_page_address,
    dir_byte_in_page, deleted_hash_page, deleted_hash_byte,
    deleted_dir_page_address, deleted_dir_byte_in_page.  Returns the state,
    the two directory out-parameters and the status.  At line 1430 the
    source tests `status != TEFS_EMPTY || status != TEFS_DELETED`, which is
    true for every status; the model reproduces that disjunction as
    written. -/
def tefs_find_file_directory_entry_loop (wfuel : ℕ) (name : List ℕ)
    (name_hash_value : ℕ) (file_operation : ℕ) :
    ℕ → FS → ℕ → ℕ → ℕ → ℕ → ℕ → ℕ → ℕ → ℕ → FS × ℕ × ℕ × ℕ
  | 0, fs, _, _, dp, db, _, _, _, _ => (fs, dp, db, TEFS_MODEL_OUT_OF_FUEL)
  | fuel + 1, fs, cp, cb, dp, db, dhp, dhb, ddp, ddb =>
      match tefs_read fs fs.hash_entries cp fs.hash_size cb with
      | (fs1, h', ob, resp) =>
        let fs := { fs1 with hash_entries := h' }
        if resp ≠ TEFS_ERR_EOF ∧ resp ≠ TEFS_ERR_OK then (fs, dp, db, resp)
        else if resp = TEFS_ERR_EOF then
          if file_operation = 1 then
            let r : ℕ × ℕ × ℕ × ℕ :=
              if dhp ≤ cp then (dhp, dhb, ddp, ddb) else (cp, cb, dp, db)
            match tefs_write wfuel fs fs.hash_entries r.1
                (toLE fs.hash_size (if fs.hash_size = 4 then name_hash_value
                  else u16 name_hash_value)) r.2.1 with
            | (fs2, h2, st) =>
                let fs := { fs2 with hash_entries := h2 }
                if st ≠ 0 then (fs, r.2.2.1, r.2.2.2, st)
                else (fs, r.2.2.1, r.2.2.2, TEFS_NEW_FILE)
          else (fs, dp, db, TEFS_ERR_FILE_NOT_FOUND)
        else
          let entry_hash_value := fromLE (ob.getD [])
          if entry_hash_value = name_hash_value then
            match tefs_read fs fs.metadata dp 1 db with
            | (fs2, m', ob2, r2) =>
              let fs := { fs2 with metadata := m' }
              if r2 ≠ 0 then (fs, dp, db, r2)
              else
                let status := (ob2.getD []).getD 0 0
                if status ≠ TEFS_EMPTY ∨ status ≠ TEFS_DELETED then
                  match ffde_check_name (fs.max_file_name_size + 2) fs name dp db with
                  | (fs3, none, st3) => (fs3, dp, db, st3)
                  | (fs3, some cc, _) =>
                      if cc.1 = nameAt name cc.2 then
                        if file_operation = 2 then
                          match tefs_write wfuel fs3 fs3.hash_entries cp
                              (toLE fs3.hash_size 0) cb with
                          | (fs4, h4, st4) =>
                              let fs4 := { fs4 with hash_entries := h4 }
                              if st4 ≠ 0 then (fs4, dp, db, st4)
                              else (fs4, dp, db, TEFS_ERR_OK)
                        else (fs3, dp, db, TEFS_ERR_OK)
                      else
                        let nxt := ffde_next fs3 cp cb dp db
                        tefs_find_file_directory_entry_loop wfuel name
                          name_hash_value file_operation fuel fs3 nxt.1 nxt.2.1
                          nxt.2.2.1 nxt.2.2.2 dhp dhb ddp ddb
                else
                  let nxt := ffde_next fs cp cb dp db
                  tefs_find_file_directory_entry_loop wfuel name
                    name_hash_value file_operation fuel fs nxt.1 nxt.2.1
                    nxt.2.2.1 nxt.2.2.2 dhp dhb ddp ddb
          else if file_operation = 1 ∧ entry_hash_value = 0 ∧ dhp = 65535 then
            let nxt := ffde_next fs cp cb dp db
            tefs_find_file_directory_entry_loop wfuel name
              name_hash_value file_operation fuel fs nxt.1 nxt.2.1
              nxt.2.2.1 nxt.2.2.2 cp cb dp db
          else
            let nxt := ffde_next fs cp cb dp db
            tefs_find_file_directory_entry_loop wfuel name
              name_hash_value file_operation fuel fs nxt.1 nxt.2.1
              nxt.2.2.1 nxt.2.2.2 dhp dhb ddp ddb

/-- tefs_find_file_directory_entry: hash the name, then walk the hash
    entries from slot (0,0).  deleted_hash_page starts at 0xFFFF. -/
def tefs_find_file_directory_entry (wfuel fuel : ℕ) (fs : FS)
    (name : List ℕ) (file_operation : ℕ) : FS × ℕ × ℕ × ℕ :=
  tefs_find_file_directory_entry_loop wfuel name
    (hash_string name fs.hash_size) file_operation fuel fs 0 0 0 0 65535 0 0 0

/-! ## tefs_format_device (tefs.c lines 225-458)

    USE_SD is defined by the build, so the state-section sizing and fill
    are included; the USE_DATAFLASH block is compiled out.  The model
    covers erase_before_format = 0 (the erase branch is not taken by the
    claim under verification).  Writes in the model are infallible, so the
    TEFS_ERR_WRITE early returns of the source cannot fire. -/

/-- The state-section fill loop (lines 420-445): every byte of every state
    page is written 0xFF until the byte holding the first past-the-end
    block bit is reached (on page state_section_size, at byte
    state_section_size_in_bytes mod page_size), from which point 0 is
    written instead.  The flag is carried through the fold exactly like the
    C data variable. -/
def format_state_fill (ssize ssib ps pse : ℕ) (d : Device) : Device :=
  ((List.range ssize).foldl (fun acc pi =>
    (List.range ps).foldl (fun acc2 bi =>
      let cp := TEFS_INFO_SECTION_SIZE + pi
      let data := if cp = ssize ∧ bi = MOD_BY_POW_2 ssib (POW_2_TO pse) then 0
        else acc2.2
      (device_write acc2.1 cp bi [data], data)) acc) (d, 0xFF)).1

def tefs_format_device (fs : FS) (num_pages physical_page_size
    logical_block_size hs ms mfns : ℕ) : FS × ℕ :=
  let address_size := if num_pages < POW_2_TO 16 then 2 else 4
  let address_size_exponent := if num_pages < POW_2_TO 16 then 1 else 2
  let pse := tefs_power_of_two_exponent physical_page_size
  let bse := tefs_power_of_two_exponent logical_block_size
  let ssib := DIV_BY_POW_2_EXP (num_pages - TEFS_INFO_SECTION_SIZE) (bse + 3)
  let S := DIV_BY_POW_2_EXP (ssib - 1) pse + 1
  let d := (List.range physical_page_size).foldl
    (fun d cb => device_write d 0 cb [0]) fs.dev
  let d := (List.range 4).foldl
    (fun d cb => device_write d 0 cb [TEFS_CHECK_FLAG]) d
  let cb := 4
  let d := device_write d 0 cb (toLE 4 num_pages)
  let cb := cb + 4
  let d := device_write d 0 cb (toLE 1 pse)
  let cb := cb + 1
  let d := device_write d 0 cb (toLE 1 bse)
  let cb := cb + 1
  let d := device_write d 0 cb (toLE 1 address_size_exponent)
  let cb := cb + 1
  let d := device_write d 0 cb (toLE 1 hs)
  let cb := cb + 1
  let d := device_write d 0 cb (toLE 2 ms)
  let cb := cb + 2
  let d := device_write d 0 cb (toLE 2 mfns)
  let cb := cb + 2
  let d := device_write d 0 cb (toLE 4 S)
  let cb := cb + 4
  let child0 := MULT_BY_POW_2_EXP 0 bse + (1 + S)
  let data0 := MULT_BY_POW_2_EXP 1 bse + (1 + S)
  let d := device_write d 0 cb (toLE TEFS_DIR_EOF_PAGE_SIZE 0)
  let cb := cb + TEFS_DIR_EOF_PAGE_SIZE
  let d := device_write d 0 cb (toLE TEFS_DIR_EOF_BYTE_SIZE 0)
  let cb := cb + TEFS_DIR_EOF_BYTE_SIZE
  let d := device_write d 0 cb (toLE address_size child0)
  let cb := cb + 4
  let d := device_write d child0 0 (toLE address_size data0)
  let child1 := MULT_BY_POW_2_EXP 2 bse + (1 + S)
  let data1 := MULT_BY_POW_2_EXP 3 bse + (1 + S)
  let d := device_write d 0 cb (toLE TEFS_DIR_EOF_PAGE_SIZE 0)
  let cb := cb + TEFS_DIR_EOF_PAGE_SIZE
  let d := device_write d 0 cb (toLE TEFS_DIR_EOF_BYTE_SIZE 0)
  let cb := cb + TEFS_DIR_EOF_BYTE_SIZE
  let d := device_write d 0 cb (toLE address_size child1)
  let d := device_write d child1 0 (toLE address_size data1)
  let d := format_state_fill S ssib physical_page_size pse d
  let d := device_write d 1 0 (toLE 1 0x0F)
  let d := device_flush d
  ({ fs with
      dev := d
      page_size := physical_page_size
      block_size := logical_block_size
      page_size_exponent := pse
      block_size_exponent := bse
      address_size_exponent := address_size_exponent
      state_section_size := S
      address_size := 0 }, TEFS_ERR_OK)

/-! ## tefs_load_card_data (tefs.c lines 1809-1994) -/

/-- Load one internal-file directory entry from the information page
    (lines 1905-1963): eof_page at cb, eof_byte at cb + 4, root index
    block address at cb + 6 (the cursor advances by 4 though address_size
    bytes are read); when the file still fits in one index block the root
    doubles as the child index block.  The eof_byte and root read failures
    return TEFS_ERR_WRITE in the source.  directory_byte records the
    cursor after this entry, cb + 10. -/
def tefs_load_file_entry (d : Device) (address_size cb threshold : ℕ) :
    Device × Option file_t × ℕ :=
  match device_read_num d 0 cb TEFS_DIR_EOF_PAGE_SIZE with
  | (d, none) => (d, none, TEFS_ERR_READ)
  | (d, some eofp) =>
    match device_read_num d 0 (cb + 4) TEFS_DIR_EOF_BYTE_SIZE with
    | (d, none) => (d, none, TEFS_ERR_READ)
    | (d, some eofb) =>
      match device_read_num d 0 (cb + 6) address_size with
      | (d, none) => (d, none, TEFS_ERR_WRITE)
      | (d, some root) =>
        if eofp ≥ threshold then
          match device_read_num d root 0 address_size with
          | (d, none) => (d, none, TEFS_ERR_READ)
          | (d, some child) =>
            match device_read_num d child 0 address_size with
            | (d, none) => (d, none, TEFS_ERR_READ)
            | (d, some dba) =>
              (d, some
                { root_index_block_address := root
                  child_index_block_address := child
                  data_block_address := dba
                  data_block_number := 0
                  current_page_number := 0
                  directory_page := 4294967295
                  directory_byte := cb + 10
                  eof_page := eofp
                  eof_byte := eofb
                  is_file_size_consistent := 1 }, TEFS_ERR_OK)
        else
          match device_read_num d root 0 address_size with
          | (d, none) => (d, none, TEFS_ERR_READ)
          | (d, some dba) =>
            (d, some
              { root_index_block_address := root
                child_index_block_address := root
                data_block_address := dba
                data_block_number := 0
                current_page_number := 0
                directory_page := 4294967295
                directory_byte := cb + 10
                eof_page := eofp
                eof_byte := eofb
                is_file_size_consistent := 1 }, TEFS_ERR_OK)

/-- One check-flag byte read (lines 1818-1829). -/
def load_flag_byte (d : Device) (cb : ℕ) : Device × ℕ :=
  match device_read_num d 0 cb 1 with
  | (d, none) => (d, TEFS_ERR_READ)
  | (d, some b) =>
      if b ≠ TEFS_CHECK_FLAG then (d, TEFS_ERR_NOT_FORMATTED)
      else (d, TEFS_ERR_OK)

def tefs_load_card_data (fs : FS) : FS × ℕ :=
  match load_flag_byte fs.dev 0 with
  | (d, st) =>
  if st ≠ 0 then ({ fs with dev := d }, st) else
  match load_flag_byte d 1 with
  | (d, st) =>
  if st ≠ 0 then ({ fs with dev := d }, st) else
  match load_flag_byte d 2 with
  | (d, st) =>
  if st ≠ 0 then ({ fs with dev := d }, st) else
  match load_flag_byte d 3 with
  | (d, st) =>
  if st ≠ 0 then ({ fs with dev := d }, st) else
  match device_read_num d 0 4 4 with
  | (d, none) => ({ fs with dev := d }, TEFS_ERR_READ)
  | (d, some np) =>
  match device_read_num d 0 8 1 with
  | (d, none) => ({ fs with dev := d }, TEFS_ERR_READ)
  | (d, some pse) =>
  match device_read_num d 0 9 1 with
  | (d, none) => ({ fs with dev := d }, TEFS_ERR_READ)
  | (d, some bse) =>
  match device_read_num d 0 10 1 with
  | (d, none) => ({ fs with dev := d }, TEFS_ERR_READ)
  | (d, some ase) =>
  match device_read_num d 0 11 1 with
  | (d, none) => ({ fs with dev := d }, TEFS_ERR_READ)
  | (d, some hs) =>
  match device_read_num d 0 12 2 with
  | (d, none) => ({ fs with dev := d }, TEFS_ERR_WRITE)
  | (d, some ms) =>
  match device_read_num d 0 14 2 with
  | (d, none) => ({ fs with dev := d }, TEFS_ERR_WRITE)
  | (d, some mfns) =>
  match device_read_num d 0 16 4 with
  | (d, none) => ({ fs with dev := d }, TEFS_ERR_READ)
  | (d, some S) =>
  let block_size := u16 (POW_2_TO bse)
  let page_size := u16 (POW_2_TO pse)
  let address_size := u8 (POW_2_TO ase)
  let apb := DIV_BY_POW_2_EXP (MULT_BY_POW_2_EXP page_size bse) ase
  let apbe := tefs_power_of_two_exponent apb
  let threshold := MULT_BY_POW_2_EXP block_size (pse - ase)
  match tefs_load_file_entry d address_size 20 threshold with
  | (d, none, st) => ({ fs with dev := d }, st)
  | (d, some hfile, _) =>
  match tefs_load_file_entry d address_size 30 threshold with
  | (d, none, st) => ({ fs with dev := d }, st)
  | (d, some mfile, _) =>
  let fs := { fs with
    dev := d
    number_of_pages := np
    page_size_exponent := pse
    block_size_exponent := bse
    address_size_exponent := ase
    hash_size := hs
    metadata_size := ms
    max_file_name_size := mfns
    state_section_size := S
    block_size := block_size
    page_size := page_size
    address_size := address_size
    addresses_per_block := apb
    addresses_per_block_exponent := apbe
    hash_entries := hfile
    metadata := mfile
    state_section_bit := 0 }
  match tefs_find_next_empty_block fs 0 with
  | (fs, bit, resp) =>
      let fs := { fs with state_section_bit := bit }
      if resp ≠ 0 then (fs, resp) else (fs, TEFS_ERR_OK)

/-! ## tefs_exists (tefs.c lines 665-702) -/

def tefs_exists (wfuel ffuel : ℕ) (fs : FS) (name : List ℕ) : FS × ℕ :=
  let loaded : FS × Option ℕ :=
    if fs.address_size = 0 then
      match tefs_load_card_data fs with
      | (fs, st) => if st ≠ 0 then (fs, some st) else (fs, none)
    else (fs, none)
  match loaded with
  | (fs, some st) => (fs, st)
  | (fs, none) =>
    match tefs_find_file_directory_entry wfuel ffuel fs name 0 with
    | (fs, dp, db, st) =>
      if st ≠ 0 then (fs, 0)
      else
        match tefs_read fs fs.metadata dp 1 db with
        | (fs1, m', ob, r) =>
          let fs := { fs1 with metadata := m' }
          if r ≠ 0 then (fs, r)
          else if (ob.getD []).getD 0 0 = TEFS_IN_USE then (fs, 1)
          else (fs, 0)

/-! ## Concrete state for the read/write round trip (claim C1)

    A mounted geometry with page_size 4 (exponent 2), block_size 2
    (exponent 1), address_size 2 (exponent 1), addresses_per_block
    page_size/address_size = 2 (exponent 1).  The open file has its root
    index block at page 100; the root entry for child block 2 (page 101,
    byte 0) points to the child index block at page 200, whose entry 0
    points to the data block at page 300.  The file's cached data block is
    block 0, so a write to file page 9 takes the slow path. -/

def c1_fs : FS :=
  { dev := { mem := fun p b =>
               if p = 101 ∧ b = 0 then 200
               else if p = 200 ∧ b = 0 then 44
               else if p = 200 ∧ b = 1 then 1
               else 0
             failAt := fun _ => false, readCount := 0, log := [] }
    state_section_bit := 0
    state_section_size := 1
    is_block_pool_empty := 0
    number_of_pages := 62500
    page_size := 4
    addresses_per_block := 2
    block_size := 2
    address_size := 2
    page_size_exponent := 2
    addresses_per_block_exponent := 1
    block_size_exponent := 1
    address_size_exponent := 1
    hash_size := 2
    metadata_size := 16
    max_file_name_size := 5
    metadata := {}
    hash_entries := {} }

def c1_file : file_t :=
  { root_index_block_address := 100
    child_index_block_address := 0
    data_block_address := 50
    data_block_number := 0
    current_page_number := 0
    directory_page := 4294967295
    directory_byte := 0
    eof_page := 20
    eof_byte := 0
    is_file_size_consistent := 1 }

/-- State after writing one byte 7 at offset 0 of file page 9. -/
def c1_after_write : FS × file_t × ℕ := tefs_write 2 c1_fs c1_file 9 [7] 0

/-- Result of reading that byte back through the same file handle. -/
def c1_after_read : FS × file_t × Option (List ℕ) × ℕ :=
  tefs_read c1_after_write.1 c1_after_write.2.1 9 1 0

/-! ## Concrete state for the append rule (claim C3)

    Same geometry as c1_fs over an all-zero error-free device; the open
    file sits at eof (3, 2) with its eof page cached
    (current_page_number = 3). -/

def c3_fs : FS :=
  { dev := zeroDevice
    state_section_bit := 0
    state_section_size := 1
    is_block_pool_empty := 0
    number_of_pages := 62500
    page_size := 4
    addresses_per_block := 2
    block_size := 2
    address_size := 2
    page_size_exponent := 2
    addresses_per_block_exponent := 1
    block_size_exponent := 1
    address_size_exponent := 1
    hash_size := 2
    metadata_size := 16
    max_file_name_size := 5
    metadata := {}
    hash_entries := {} }

def c3_file : file_t :=
  { root_index_block_address := 0
    child_index_block_address := 50
    data_block_address := 60
    data_block_number := 1
    current_page_number := 3
    directory_page := 4294967295
    directory_byte := 0
    eof_page := 3
    eof_byte := 2
    is_file_size_consistent := 1 }

/-! ## Concrete states for the root-transition claim (C2)

    Same geometry as c3_fs: block_size B = 2, addresses per page
    ppa = page_size / address_size = 2, so B * ppa = 4 while the code's
    transition threshold block_size << (page_size_exponent -
    address_size_exponent + block_size_exponent) is 8. -/

/-- File whose eof_page has reached exactly B * ppa = 4, next write page
    cached. -/
def c2_file : file_t :=
  { root_index_block_address := 0
    child_index_block_address := 50
    data_block_address := 60
    data_block_number := 2
    current_page_number := 4
    directory_page := 4294967295
    directory_byte := 0
    eof_page := 4
    eof_byte := 0
    is_file_size_consistent := 1 }

/-- State for the amended-transition witness: the state-section bit at the
    cursor (bit 0) is set (byte 0x80 at state page 1), pool not empty. -/
def c2w_fs : FS :=
  { dev := { mem := fun p b => if p = 1 ∧ b = 0 then 128 else 0
             failAt := fun _ => false, readCount := 0, log := [] }
    state_section_bit := 0
    state_section_size := 1
    is_block_pool_empty := 0
    number_of_pages := 62500
    page_size := 4
    addresses_per_block := 2
    block_size := 2
    address_size := 2
    page_size_exponent := 2
    addresses_per_block_exponent := 1
    block_size_exponent := 1
    address_size_exponent := 1
    hash_size := 2
    metadata_size := 16
    max_file_name_size := 5
    metadata := {}
    hash_entries := {} }

/-- File one wrap before the code's actual transition threshold 8. -/
def c2w_file : file_t :=
  { root_index_block_address := 0
    child_index_block_address := 50
    data_block_address := 70
    data_block_number := 3
    current_page_number := 7
    directory_page := 4294967295
    directory_byte := 0
    eof_page := 7
    eof_byte := 0
    is_file_size_consistent := 1 }

/-! ## Concrete state for the directory-lookup claim (C4)

    page_size 32, hash_size 2, metadata_size 16, max_file_name_size 5.
    The hash-entries file (data block at page 80) holds one 2-byte entry:
    the hash of the one-character name "a" (byte 97), 46562
    little-endian.  The metadata file (data block at page 90) holds the
    matching record: status byte 0 = TEFS_EMPTY (never set to in_use) and
    the name "a" at offset TEFS_DIR_STATIC_DATA_SIZE = 11. -/

def c4_fs : FS :=
  { dev := { mem := fun p b =>
               if p = 80 ∧ b = 0 then 226
               else if p = 80 ∧ b = 1 then 181
               else if p = 90 ∧ b = 11 then 97
               else 0
             failAt := fun _ => false, readCount := 0, log := [] }
    state_section_bit := 0
    state_section_size := 1
    is_block_pool_empty := 0
    number_of_pages := 62500
    page_size := 32
    addresses_per_block := 16
    block_size := 2
    address_size := 2
    page_size_exponent := 5
    addresses_per_block_exponent := 4
    block_size_exponent := 1
    address_size_exponent := 1
    hash_size := 2
    metadata_size := 16
    max_file_name_size := 5
    metadata :=
      { root_index_block_address := 0
        child_index_block_address := 0
        data_block_address := 90
        data_block_number := 0
        current_page_number := 0
        directory_page := 4294967295
        directory_byte := 0
        eof_page := 0
        eof_byte := 16
        is_file_size_consistent := 1 }
    hash_entries :=
      { root_index_block_address := 0
        child_index_block_address := 0
        data_block_address := 80
        data_block_number := 0
        current_page_number := 0
        directory_page := 4294967295
        directory_byte := 0
        eof_page := 0
        eof_byte := 2
        is_file_size_consistent := 1 } }

/-! ## Concrete states for the tefs_exists claim (C10)

    The c4_fs directory layout with the record's status byte set to
    TEFS_IN_USE, under three device behaviours: error-free; read ordinal 4
    failing (the status re-read tefs_exists performs after the lookup
    found the entry with reads 0-3); and read ordinal 0 failing (the first
    hash-entry read of the directory scan). -/

def c10_mem : ℕ → ℕ → ℕ := fun p b =>
  if p = 80 ∧ b = 0 then 226
  else if p = 80 ∧ b = 1 then 181
  else if p = 90 ∧ b = 0 then 2
  else if p = 90 ∧ b = 11 then 97
  else 0

def c10_base (fail : ℕ → Bool) : FS :=
  { c4_fs with dev := { mem := c10_mem, failAt := fail, readCount := 0, log := [] } }

def c10ok_fs : FS := c10_base (fun _ => false)

def c10_fs : FS := c10_base (fun n => n == 4)

def c10b_fs : FS := c10_base (fun n => n == 0)

/-! ## Concrete states for the reserve-before-publish claim (C5)

    c1_fs geometry.  In c5_fs the whole state section (page 1) is zero
    while is_block_pool_empty is still 0 — the state tefs_release_device_block
    leaves behind when a block whose bit is at or past the cursor is freed
    after the pool ran empty, except that here the cursor bit is 0.  In
    c5w_fs the cursor bit is set (byte 0x80). -/

def c5_fs : FS :=
  { dev := zeroDevice
    state_section_bit := 0
    state_section_size := 1
    is_block_pool_empty := 0
    number_of_pages := 62500
    page_size := 4
    addresses_per_block := 2
    block_size := 2
    address_size := 2
    page_size_exponent := 2
    addresses_per_block_exponent := 1
    block_size_exponent := 1
    address_size_exponent := 1
    hash_size := 2
    metadata_size := 16
    max_file_name_size := 5
    metadata := {}
    hash_entries := {} }

/-- An open file whose cached block does not cover page 9 and whose size
    bookkeeping is inconsistent (as after any earlier extending write), so
    a write to page 9 takes the allocating slow path. -/
def c5_file : file_t :=
  { root_index_block_address := 100
    child_index_block_address := 0
    data_block_address := 50
    data_block_number := 0
    current_page_number := 0
    directory_page := 4294967295
    directory_byte := 0
    eof_page := 20
    eof_byte := 0
    is_file_size_consistent := 0 }

def c5w_fs : FS :=
  { c5_fs with dev := { mem := fun p b => if p = 1 ∧ b = 0 then 128 else 0
                        failAt := fun _ => false, readCount := 0, log := [] } }

/-! ## Concrete run for the format / mount claim (C8) -/

/-- An unmounted state over a zeroed error-free device; every mount-time
    parameter still 0. -/
def c8_blank : FS :=
  { dev := zeroDevice
    state_section_bit := 0
    state_section_size := 0
    is_block_pool_empty := 0
    number_of_pages := 0
    page_size := 0
    addresses_per_block := 0
    block_size := 0
    address_size := 0
    page_size_exponent := 0
    addresses_per_block_exponent := 0
    block_size_exponent := 0
    address_size_exponent := 0
    hash_size := 0
    metadata_size := 0
    max_file_name_size := 0
    metadata := {}
    hash_entries := {} }

/-- tefs_format_device(62500, 512, 8, 4, 32, 12) on the blank device. -/
def c8_formatted : FS × ℕ := tefs_format_device c8_blank 62500 512 8 4 32 12

/-- The subsequent lazy mount. -/
def c8_mounted : FS × ℕ := tefs_load_card_data c8_formatted.1

/-! ## Claim C7: the hash function -/

theorem hash_loop_eq_foldl (str : List ℕ) (h : ℕ)
    (hascii : ∀ b ∈ str, 0 < b ∧ b < 128) :
    hash_loop h str = str.foldl (fun h b => u32 (h * 33) ^^^ b % 256) h := by
  induction str generalizing h with
  | nil => rfl
  | cons c rest ih =>
      obtain ⟨hc0, hc⟩ := hascii c (by simp)
      have hmod : c % 256 = c := Nat.mod_eq_of_lt (by omega)
      rw [hash_loop, List.foldl_cons]
      rw [if_neg (by omega)]
      rw [ih _ (fun b hb => hascii b (by simp [hb]))]
      have hseed : u32 ((h <<< 5) + h) ^^^ int8_as_u32 c = u32 (h * 33) ^^^ c % 256 := by
        have h325 : (h <<< 5) + h = h * 33 := by
          have hsl := Nat.shiftLeft_eq h 5
          norm_num at hsl
          omega
        have hlt : c % 256 < 128 := by omega
        rw [int8_as_u32, if_pos hlt, hmod, h325]
      rw [hseed]

/-- Claim C7 (corrected), counterexample: for the name "inj" (bytes
    105,110,106) and the 2-byte hash size, hash_string returns 0, because
    the zero-coercion happens before the reduction modulo 65521 and the
    32-bit hash 193417992 = 65521 * 2952; this refutes the claim's
    "hash(s) != 0" for both hash sizes. -/
theorem c7_hash_zero_counterexample : hash_string [105, 110, 106] 2 = 0 := by decide

/-- Claim C7 (corrected, amended): for every null-terminated name whose
    bytes are nonzero ASCII (< 0x80) and for both hash sizes, hash_string
    equals the spec's DJB2a definition (h = 5381; per byte h = (h*33) XOR b
    on 32 bits; zero coerced to 1; for a 2-byte hash size reduced modulo
    65521); the result is guaranteed nonzero for the 4-byte hash size only
    (the modulo-65521 reduction of the 2-byte variant can produce 0). -/
theorem c7_hash_matches_djb2a_on_ascii (str : List ℕ) (hs : ℕ)
    (hascii : ∀ b ∈ str, 0 < b ∧ b < 128) :
    hash_string str hs = djb2a_spec str hs ∧ (hs = 4 → hash_string str hs ≠ 0) := by
  constructor
  · rw [hash_string, djb2a_spec, hash_loop_eq_foldl str 5381 hascii]
  · intro h4
    rw [hash_string, h4]
    by_cases h0 : hash_loop 5381 str = 0 <;> simp [h0]

/-! ## Claims C9 and C6: tefs_reserve_device_block -/

/-- Claim C9 (confirmed): in the state c9_state (state bit at the cursor
    already 0, pool_empty unset, device reads succeeding),
    tefs_reserve_device_block returns TEFS_ERR_OK without assigning its
    block_address out-parameter (Option result none), so a caller keeps
    whatever value its variable held before the call. -/
theorem c9_reserve_ok_without_assigning :
    ((tefs_reserve_device_block c9_state).2.1 = none ∧
      (tefs_reserve_device_block c9_state).2.2 = TEFS_ERR_OK) ∧
    c9_state.is_block_pool_empty = 0 := by
  constructor
  · constructor <;> rfl
  · rfl

/-- Claim C6 (corrected), counterexample: in the state c6_cex_state,
    pool_empty is unset, yet tefs_reserve_device_block neither clears bit
    next_free_bit (the state bytes are untouched) nor returns the block
    address 1 + S + next_free_bit * block_size: since the bit at the cursor
    is already 0, the function returns TEFS_ERR_OK with its out-parameter
    unassigned and the device memory unchanged. -/
theorem c6_reserve_counterexample :
    c6_cex_state.is_block_pool_empty = 0 ∧
    (tefs_reserve_device_block c6_cex_state).2.1 = none ∧
    (tefs_reserve_device_block c6_cex_state).2.2 = TEFS_ERR_OK ∧
    (tefs_reserve_device_block c6_cex_state).1.dev.mem 1 0 = c6_cex_state.dev.mem 1 0 := by
  exact ⟨rfl, rfl, rfl, rfl⟩

/-! ### Generic facts used by the allocator proofs -/

theorem find?_range_eq_some {p : ℕ → Bool} {n j : ℕ} (hj : j < n) (hpj : p j = true)
    (hmin : ∀ i, i < j → p i = false) : (List.range n).find? p = some j := by
  induction n with
  | zero => omega
  | succ n ih =>
      rw [List.range_succ, List.find?_append]
      rcases Nat.lt_or_ge j n with hlt | hge
      · rw [ih hlt]; rfl
      · have hjn : j = n := by omega
        have hnone : (List.range n).find? p = none := by
          rw [List.find?_eq_none]
          intro x hx
          simp only [List.mem_range] at hx
          simp [hmin x (by omega)]
        subst hjn
        rw [hnone]
        simp [List.find?_cons, hpj]

theorem find?_range_props {p : ℕ → Bool} {n j : ℕ}
    (h : (List.range n).find? p = some j) :
    p j = true ∧ j < n ∧ ∀ i, i < j → p i = false := by
  induction n with
  | zero => simp [List.range_zero] at h
  | succ n ih =>
      rw [List.range_succ, List.find?_append] at h
      cases hfind : (List.range n).find? p with
      | some j' =>
          rw [hfind] at h
          have hjj : j' = j := by simpa [Option.or] using h
          subst hjj
          obtain ⟨h1, h2, h3⟩ := ih hfind
          exact ⟨h1, by omega, h3⟩
      | none =>
          rw [hfind] at h
          simp only [Option.or] at h
          have hmem := List.find?_some h
          have hj : j = n := by
            have := List.mem_of_find?_eq_some h
            simp only [List.mem_singleton] at this
            exact this
          subst hj
          refine ⟨hmem, by omega, ?_⟩
          intro i hi
          have := (List.find?_eq_none.mp hfind) i (by simp [List.mem_range]; omega)
          simpa using this

theorem device_read_errorFree (d : Device) (h : ErrorFree d) (p o l : ℕ) :
    device_read d p o l = (d.bumpReads 1, some (d.readBytes p o l)) := by
  simp [device_read, h d.readCount, Device.bumpReads]

theorem bumpReads_zero (d : Device) : d.bumpReads 0 = d := by
  simp [Device.bumpReads]

theorem bumpReads_bumpReads (d : Device) (m n : ℕ) :
    (d.bumpReads m).bumpReads n = d.bumpReads (m + n) := by
  simp [Device.bumpReads, Nat.add_assoc]

theorem errorFree_bumpReads (d : Device) (n : ℕ) (h : ErrorFree d) :
    ErrorFree (d.bumpReads n) := h

theorem bumpReads_mem (d : Device) (n : ℕ) : (d.bumpReads n).mem = d.mem := rfl

theorem readBytes_one (d : Device) (p o : ℕ) :
    d.readBytes p o 1 = [d.mem p o % 256] := by
  simp [Device.readBytes, List.range_succ]

theorem fromLE_one (b : ℕ) : fromLE [b] = b % 256 := by
  simp [fromLE]

/-! ### Byte-level facts, decided over all 256 byte values -/

set_option maxRecDepth 100000 in
theorem byte_clear_own_bit :
    ∀ b < 256, ∀ s < 8, ((b &&& (255 - 2 ^ s)) &&& 2 ^ s) = 0 := by decide

set_option maxRecDepth 100000 in
theorem byte_clear_other_bit :
    ∀ b < 256, ∀ s < 8, ∀ t < 8, s ≠ t →
      ((b &&& (255 - 2 ^ s)) &&& 2 ^ t) = b &&& 2 ^ t := by decide

theorem byte_and_lt (b m : ℕ) (h : b < 256) : b &&& m < 256 :=
  Nat.lt_of_le_of_lt (Nat.and_le_left) h

set_option maxRecDepth 100000 in
theorem byte_zero_of_bits_zero :
    ∀ b < 256, (∀ t < 8, b &&& 2 ^ (7 - t) = 0) → b = 0 := by decide

set_option maxRecDepth 100000 in
theorem msb_mask_count_spec :
    ∀ b < 256, ∀ t < 8, (b &&& 2 ^ (7 - t)) ≠ 0 → (∀ s < t, b &&& 2 ^ (7 - s) = 0) →
      msb_mask_count b = t := by decide

/-! ### The state-section scan finds the next 1-bit -/

theorem mod256_mod256 (x : ℕ) : x % 256 % 256 = x % 256 :=
  Nat.mod_mod_of_dvd x dvd_rfl

theorem fneb_scan_bytes_none (fuel : ℕ) (fs : FS) (cp cb : ℕ)
    (hEF : ErrorFree fs.dev)
    (hz : ∀ i < fuel, fs.dev.mem (cp + 1) (cb + i) % 256 = 0) :
    fneb_scan_bytes fs cp cb fuel =
      ({ fs with dev := fs.dev.bumpReads fuel }, .nextPage) := by
  induction fuel generalizing fs cb with
  | zero => simp [fneb_scan_bytes, bumpReads_zero]
  | succ fuel ih =>
      rw [fneb_scan_bytes, device_read_errorFree _ hEF]
      have h0 : fs.dev.mem (cp + 1) cb % 256 = 0 := by
        have := hz 0 (by omega); simpa using this
      simp only [readBytes_one, fromLE_one, mod256_mod256, h0, ne_eq,
        not_true_eq_false, if_neg, ite_false, not_false_eq_true]
      rw [ih { fs with dev := fs.dev.bumpReads 1 } (cb + 1) hEF
        (by intro i hi; have := hz (i + 1) (by omega)
            simpa [bumpReads_mem, Nat.add_assoc, Nat.add_comm 1 i] using this)]
      rw [bumpReads_bumpReads]
      simp [Nat.add_comm]

theorem POW_2_TO_eq (e : ℕ) : POW_2_TO e = 2 ^ e := by
  simp [POW_2_TO, Nat.shiftLeft_eq]

theorem MULT_BY_POW_2_EXP_eq (x e : ℕ) : MULT_BY_POW_2_EXP x e = x * 2 ^ e :=
  Nat.shiftLeft_eq x e

theorem DIV_BY_POW_2_EXP_eq (x e : ℕ) : DIV_BY_POW_2_EXP x e = x / 2 ^ e :=
  Nat.shiftRight_eq_div_pow x e

theorem MOD_BY_POW_2_pow (x k : ℕ) : MOD_BY_POW_2 x (2 ^ k) = x % 2 ^ k :=
  Nat.and_pow_two_sub_one_eq_mod x k

theorem mul_add_div_lt {P p b : ℕ} (hP : 0 < P) (hb : b < P) : (p * P + b) / P = p := by
  rw [Nat.mul_comm, Nat.mul_add_div hP, Nat.div_eq_of_lt hb]
  omega

theorem mul_add_mod_lt {P p b : ℕ} (hb : b < P) : (p * P + b) % P = b := by
  rw [Nat.add_comm, Nat.add_mul_mod_self_right, Nat.mod_eq_of_lt hb]

theorem fneb_scan_bytes_found (fuel : ℕ) (fs : FS) (cp cb i : ℕ)
    (hEF : ErrorFree fs.dev) (hi : i < fuel)
    (hz : ∀ t < i, fs.dev.mem (cp + 1) (cb + t) % 256 = 0)
    (hnz : fs.dev.mem (cp + 1) (cb + i) % 256 ≠ 0) :
    fneb_scan_bytes fs cp cb fuel =
      ({ fs with dev := fs.dev.bumpReads (i + 1) },
        .found (MULT_BY_POW_2_EXP cp (fs.page_size_exponent + 3) +
          MULT_BY_POW_2_EXP (cb + i) 3 +
          msb_mask_count (fs.dev.mem (cp + 1) (cb + i) % 256))) := by
  induction fuel generalizing fs cb i with
  | zero => omega
  | succ fuel ih =>
      rw [fneb_scan_bytes, device_read_errorFree _ hEF]
      cases i with
      | zero =>
          have hnz' : fs.dev.mem (cp + 1) cb % 256 ≠ 0 := by simpa using hnz
          simp only [readBytes_one, fromLE_one, mod256_mod256, ne_eq, hnz',
            not_false_eq_true, if_pos]
          simp
      | succ i' =>
          have h0 : fs.dev.mem (cp + 1) cb % 256 = 0 := by
            have := hz 0 (by omega); simpa using this
          simp only [readBytes_one, fromLE_one, mod256_mod256, h0, ne_eq,
            not_true_eq_false, if_neg, ite_false, not_false_eq_true]
          rw [ih { fs with dev := fs.dev.bumpReads 1 } (cb + 1) i' hEF (by omega)
            (by intro t ht; have := hz (t + 1) (by omega)
                simpa [bumpReads_mem, Nat.add_assoc, Nat.add_comm 1 t] using this)
            (by simpa [bumpReads_mem, Nat.add_assoc, Nat.add_comm 1 i'] using hnz)]
          rw [bumpReads_bumpReads]
          have e1 : cb + 1 + i' = cb + (i' + 1) := by omega
          have e2 : 1 + (i' + 1) = i' + 1 + 1 := by omega
          simp [e1, e2, bumpReads_mem]

theorem fneb_scan_pages_none (fuelP : ℕ) (fs : FS) (cp cb : ℕ)
    (hEF : ErrorFree fs.dev)
    (hfuel : fuelP = fs.state_section_size - cp)
    (hz : ∀ p b, cp ≤ p → p < fs.state_section_size → b < fs.page_size →
      (p = cp → cb ≤ b) → fs.dev.mem (p + 1) b % 256 = 0) :
    ∃ n, fneb_scan_pages fs cp cb fuelP =
      ({ fs with dev := fs.dev.bumpReads n, is_block_pool_empty := 1 }, none, TEFS_ERR_OK) := by
  induction fuelP generalizing fs cp cb with
  | zero => exact ⟨0, by simp [fneb_scan_pages, bumpReads_zero]⟩
  | succ fuelP ih =>
      have hcp : cp < fs.state_section_size := by omega
      rw [fneb_scan_pages,
        fneb_scan_bytes_none (fs.page_size - cb) fs cp cb hEF
          (by intro t ht
              exact hz cp (cb + t) (le_refl cp) hcp (by omega) (fun _ => by omega))]
      simp only []
      obtain ⟨n, hn⟩ := ih { fs with dev := fs.dev.bumpReads (fs.page_size - cb) } (cp + 1) 0
        hEF (by simpa using by omega)
        (by intro p b hp1 hp2 hb _
            exact hz p b (by omega) hp2 hb (fun hpc => by omega))
      refine ⟨(fs.page_size - cb) + n, ?_⟩
      rw [hn, bumpReads_bumpReads]

theorem fneb_scan_pages_found (fuelP : ℕ) (fs : FS) (cp cb u : ℕ)
    (hEF : ErrorFree fs.dev)
    (hP : fs.page_size = 2 ^ fs.page_size_exponent)
    (hfuel : fuelP = fs.state_section_size - cp)
    (hcb : cb ≤ fs.page_size)
    (hu_lo : cp * fs.page_size + cb ≤ u)
    (hu_hi : u < fs.state_section_size * fs.page_size)
    (hz : ∀ v, cp * fs.page_size + cb ≤ v → v < u →
      fs.dev.mem (v / fs.page_size + 1) (v % fs.page_size) % 256 = 0)
    (hnz : fs.dev.mem (u / fs.page_size + 1) (u % fs.page_size) % 256 ≠ 0) :
    ∃ n, fneb_scan_pages fs cp cb fuelP =
      ({ fs with dev := fs.dev.bumpReads n },
        some (8 * u + msb_mask_count
          (fs.dev.mem (u / fs.page_size + 1) (u % fs.page_size) % 256)),
        TEFS_ERR_OK) := by
  induction fuelP generalizing fs cp cb with
  | zero =>
      exfalso
      have : fs.state_section_size ≤ cp := by omega
      have : fs.state_section_size * fs.page_size ≤ cp * fs.page_size :=
        Nat.mul_le_mul_right _ this
      omega
  | succ fuelP ih =>
      have hPpos : 0 < fs.page_size := by rw [hP]; positivity
      rcases Nat.lt_or_ge u ((cp + 1) * fs.page_size) with hlt | hge
      · -- the target byte is on the current page
        have hlt' : u < cp * fs.page_size + fs.page_size := by
          rwa [Nat.succ_mul] at hlt
        have hcpu : cp * fs.page_size ≤ u := by omega
        have hdiv : u / fs.page_size = cp := by
          have : u = cp * fs.page_size + (u - cp * fs.page_size) := by omega
          rw [this]
          exact mul_add_div_lt hPpos (by omega)
        have hmod : u % fs.page_size = u - cp * fs.page_size := by
          have : u = cp * fs.page_size + (u - cp * fs.page_size) := by omega
          conv_lhs => rw [this]
          exact mul_add_mod_lt (by omega)
        set i := u - cp * fs.page_size - cb with hi_def
        have hcbi : cb + i = u - cp * fs.page_size := by omega
        rw [fneb_scan_pages,
          fneb_scan_bytes_found (fs.page_size - cb) fs cp cb i hEF (by omega)
            (by intro t ht
                have := hz (cp * fs.page_size + cb + t) (by omega) (by omega)
                have hd : (cp * fs.page_size + cb + t) / fs.page_size = cp := by
                  rw [Nat.add_assoc]
                  exact mul_add_div_lt hPpos (by omega)
                have hm : (cp * fs.page_size + cb + t) % fs.page_size = cb + t := by
                  rw [Nat.add_assoc]
                  exact mul_add_mod_lt (by omega)
                rwa [hd, hm] at this)
            (by rw [hcbi, ← hmod, ← hdiv]; exact hnz)]
        simp only []
        refine ⟨i + 1, ?_⟩
        have hval : MULT_BY_POW_2_EXP cp (fs.page_size_exponent + 3) +
            MULT_BY_POW_2_EXP (cb + i) 3 +
            msb_mask_count (fs.dev.mem (cp + 1) (cb + i) % 256) =
            8 * u + msb_mask_count
              (fs.dev.mem (u / fs.page_size + 1) (u % fs.page_size) % 256) := by
          rw [hdiv, hmod, ← hcbi]
          rw [MULT_BY_POW_2_EXP_eq, MULT_BY_POW_2_EXP_eq]
          have : 2 ^ (fs.page_size_exponent + 3) = fs.page_size * 8 := by
            rw [hP, pow_add]; norm_num
          rw [this]
          have h8 : (2:ℕ) ^ 3 = 8 := by norm_num
          rw [h8]
          have : cp * fs.page_size + (cb + i) = u := by omega
          nlinarith [this]
        rw [hval]
      · -- the whole current page is zero; continue on the next page
        have hge' : cp * fs.page_size + fs.page_size ≤ u := by
          rwa [Nat.succ_mul] at hge
        have hcpS : cp + 1 < fs.state_section_size := by
          by_contra hcon
          have h1 : fs.state_section_size ≤ cp + 1 := by omega
          have : fs.state_section_size * fs.page_size ≤ (cp + 1) * fs.page_size :=
            Nat.mul_le_mul_right _ h1
          omega
        rw [fneb_scan_pages,
          fneb_scan_bytes_none (fs.page_size - cb) fs cp cb hEF
            (by intro t ht
                have := hz (cp * fs.page_size + cb + t) (by omega) (by omega)
                have hd : (cp * fs.page_size + cb + t) / fs.page_size = cp := by
                  rw [Nat.add_assoc]
                  exact mul_add_div_lt hPpos (by omega)
                have hm : (cp * fs.page_size + cb + t) % fs.page_size = cb + t := by
                  rw [Nat.add_assoc]
                  exact mul_add_mod_lt (by omega)
                rwa [hd, hm] at this)]
        simp only []
        obtain ⟨n, hn⟩ := ih { fs with dev := fs.dev.bumpReads (fs.page_size - cb) }
          (cp + 1) 0 hEF hP (by simpa using by omega) (by omega)
          (by simpa [Nat.succ_mul] using hge') (by simpa using hu_hi)
          (by intro v hv1 hv2
              have hv1' : cp * fs.page_size + fs.page_size ≤ v := by
                simpa [Nat.succ_mul] using hv1
              exact hz v (by omega) hv2)
          (by simpa using hnz)
        refine ⟨(fs.page_size - cb) + n, ?_⟩
        rw [hn]
        simp [bumpReads_bumpReads, bumpReads_mem]

theorem div_mod_inj {P x y : ℕ} (h1 : x / P = y / P) (h2 : x % P = y % P) : x = y := by
  have hx := Nat.div_add_mod x P
  have hy := Nat.div_add_mod y P
  rw [h1] at hx
  omega

theorem errorFree_device_write (d : Device) (p o : ℕ) (data : List ℕ)
    (h : ErrorFree d) : ErrorFree (device_write d p o data) := h

theorem device_write_single_mem (d : Device) (page off v p b : ℕ) :
    (device_write d page off [v]).mem p b =
      if p = page ∧ b = off then v % 256 else d.mem p b := by
  by_cases hp : p = page
  · by_cases hb : b = off
    · subst hp; subst hb
      simp [device_write]
    · have hno : ¬(off ≤ b ∧ b < off + 1) := by omega
      simp only [device_write, List.length_singleton]
      rw [if_neg (by tauto), if_neg (by tauto)]
  · simp only [device_write, List.length_singleton]
    rw [if_neg (by tauto), if_neg (by tauto)]

theorem state_bit_b_congr (d d' : Device) (h : d.mem = d'.mem) (pse j : ℕ) :
    state_bit_b d pse j = state_bit_b d' pse j := by
  simp [state_bit_b, h]

theorem least_set_bit_congr (d d' : Device) (h : d.mem = d'.mem) (pse S s : ℕ) :
    least_set_bit d pse S s = least_set_bit d' pse S s := by
  unfold least_set_bit
  congr 1
  funext j
  rw [state_bit_b_congr d d' h]

/-- Clearing bit k%8 (counted from the most significant bit) of the state
    byte holding bit k clears exactly bit k and preserves every other state
    bit. -/
theorem state_bit_after_clear (d : Device) (pse k : ℕ) :
    (state_bit_b
        (device_write d (k / 8 / 2 ^ pse + 1) (k / 8 % 2 ^ pse)
          [d.mem (k / 8 / 2 ^ pse + 1) (k / 8 % 2 ^ pse) % 256 &&& (255 - 2 ^ (7 - k % 8))])
        pse k = false) ∧
    (∀ j, j ≠ k →
      state_bit_b
          (device_write d (k / 8 / 2 ^ pse + 1) (k / 8 % 2 ^ pse)
            [d.mem (k / 8 / 2 ^ pse + 1) (k / 8 % 2 ^ pse) % 256 &&& (255 - 2 ^ (7 - k % 8))])
          pse j = state_bit_b d pse j) := by
  set sp := k / 8 / 2 ^ pse + 1 with hsp
  set so := k / 8 % 2 ^ pse with hso
  set b := d.mem sp so % 256 with hbdef
  have hblt : b < 256 := Nat.mod_lt _ (by norm_num)
  have hkm : k % 8 < 8 := Nat.mod_lt _ (by norm_num)
  have hbmod : (b &&& (255 - 2 ^ (7 - k % 8))) % 256 = b &&& (255 - 2 ^ (7 - k % 8)) :=
    Nat.mod_eq_of_lt (byte_and_lt b _ hblt)
  constructor
  · rw [state_bit_b, device_write_single_mem]
    rw [if_pos ⟨rfl, rfl⟩, mod256_mod256, hbmod]
    have := byte_clear_own_bit b hblt (7 - k % 8) (by omega)
    simp [this]
  · intro j hj
    by_cases hbyte : j / 8 = k / 8
    · have hjm : j % 8 ≠ k % 8 := by
        intro hc
        exact hj (div_mod_inj (P := 8) hbyte hc)
      rw [state_bit_b, state_bit_b, device_write_single_mem]
      rw [hbyte]
      rw [if_pos ⟨rfl, rfl⟩, mod256_mod256, hbmod]
      have hst : 7 - k % 8 ≠ 7 - j % 8 := by omega
      have := byte_clear_other_bit b hblt (7 - k % 8) (by omega) (7 - j % 8)
        (by omega) hst
      rw [this, hbdef]
    · have hdiff : ¬(j / 8 / 2 ^ pse + 1 = sp ∧ j / 8 % 2 ^ pse = so) := by
        intro ⟨h1, h2⟩
        exact hbyte (div_mod_inj (P := 2 ^ pse) (by omega) h2)
      rw [state_bit_b, state_bit_b, device_write_single_mem]
      rw [if_neg hdiff]

theorem u16_eq_of_lt {x : ℕ} (h : x < 65536) : u16 x = x := Nat.mod_eq_of_lt h

theorem MOD_BY_POW_2_8 (x : ℕ) : MOD_BY_POW_2 x 8 = x % 8 := by
  have h8 : (8:ℕ) = 2 ^ 3 := by norm_num
  rw [h8, MOD_BY_POW_2_pow]

theorem DIV_BY_POW_2_EXP_3 (x : ℕ) : DIV_BY_POW_2_EXP x 3 = x / 8 := by
  rw [DIV_BY_POW_2_EXP_eq]; norm_num

theorem state_bit_b_byte (d : Device) (pse v t : ℕ) (ht : t < 8) :
    state_bit_b d pse (8 * v + t) =
      ((d.mem (v / 2 ^ pse + 1) (v % 2 ^ pse) % 256) &&& 2 ^ (7 - t) != 0) := by
  have h1 : (8 * v + t) / 8 = v := by omega
  have h2 : (8 * v + t) % 8 = t := by omega
  rw [state_bit_b, h1, h2]

theorem byte_zero_of_state_bits (d : Device) (pse v : ℕ)
    (h : ∀ t < 8, state_bit_b d pse (8 * v + t) = false) :
    d.mem (v / 2 ^ pse + 1) (v % 2 ^ pse) % 256 = 0 := by
  apply byte_zero_of_bits_zero _ (Nat.mod_lt _ (by norm_num))
  intro t ht
  have hb := h t ht
  rw [state_bit_b_byte d pse v t ht] at hb
  simpa using hb

theorem byte_ne_zero_of_state_bit (d : Device) (pse j : ℕ)
    (h : state_bit_b d pse j = true) :
    d.mem (j / 8 / 2 ^ pse + 1) (j / 8 % 2 ^ pse) % 256 ≠ 0 := by
  intro hz
  rw [state_bit_b, hz] at h
  simp at h

theorem msb_eq_mod (d : Device) (pse j : ℕ)
    (hset : state_bit_b d pse j = true)
    (hmin : ∀ t < j % 8, state_bit_b d pse (8 * (j / 8) + t) = false) :
    msb_mask_count (d.mem (j / 8 / 2 ^ pse + 1) (j / 8 % 2 ^ pse) % 256) = j % 8 := by
  apply msb_mask_count_spec _ (Nat.mod_lt _ (by norm_num)) _ (Nat.mod_lt _ (by norm_num))
  · rw [state_bit_b] at hset
    simpa using hset
  · intro s hs
    have hb := hmin s hs
    rw [state_bit_b_byte d pse (j / 8) s (by omega)] at hb
    simpa using hb

/-- Characterization of tefs_find_next_empty_block on an error-free device:
    the scan returns the least set state bit at or after the given bit
    (given that the earlier bits of the start byte are clear), or sets
    is_block_pool_empty when no set bit remains. -/
theorem tefs_find_next_empty_block_spec (fs : FS) (k1 : ℕ)
    (hEF : ErrorFree fs.dev)
    (hP : fs.page_size = 2 ^ fs.page_size_exponent)
    (hpse : fs.page_size_exponent ≤ 15)
    (hlow : ∀ j, 8 * (k1 / 8) ≤ j → j < k1 →
      state_bit_b fs.dev fs.page_size_exponent j = false) :
    (match least_set_bit fs.dev fs.page_size_exponent fs.state_section_size k1 with
     | some j => ∃ n, tefs_find_next_empty_block fs k1 =
         ({ fs with dev := fs.dev.bumpReads n }, j, TEFS_ERR_OK)
     | none => ∃ n, tefs_find_next_empty_block fs k1 =
         ({ fs with dev := fs.dev.bumpReads n, is_block_pool_empty := 1 }, k1,
           TEFS_ERR_OK)) := by
  have hPpos : (0:ℕ) < 2 ^ fs.page_size_exponent := pow_pos (by norm_num) _
  have hPpos' : 0 < fs.page_size := by rw [hP]; exact hPpos
  have hsolt : k1 / 8 % 2 ^ fs.page_size_exponent < 65536 :=
    lt_of_lt_of_le (Nat.mod_lt _ hPpos)
      (le_trans (Nat.pow_le_pow_right (by norm_num) hpse) (by norm_num))
  have hcp_eq : DIV_BY_POW_2_EXP (DIV_BY_POW_2_EXP k1 3) fs.page_size_exponent =
      k1 / 8 / 2 ^ fs.page_size_exponent := by
    rw [DIV_BY_POW_2_EXP_3, DIV_BY_POW_2_EXP_eq]
  have hcb_eq : u16 (MOD_BY_POW_2 (DIV_BY_POW_2_EXP k1 3) fs.page_size) =
      k1 / 8 % 2 ^ fs.page_size_exponent := by
    rw [DIV_BY_POW_2_EXP_3, hP, MOD_BY_POW_2_pow, u16_eq_of_lt hsolt]
  have hstart : k1 / 8 / 2 ^ fs.page_size_exponent * fs.page_size +
      k1 / 8 % 2 ^ fs.page_size_exponent = k1 / 8 := by
    rw [hP, Nat.mul_comm]
    exact Nat.div_add_mod _ _
  cases hls : least_set_bit fs.dev fs.page_size_exponent fs.state_section_size k1 with
  | some j =>
      obtain ⟨hpj, hjlt, hmin⟩ := find?_range_props hls
      rw [Bool.and_eq_true, decide_eq_true_iff] at hpj
      obtain ⟨hk1j, hsetj⟩ := hpj
      have hbitzero : ∀ i, 8 * (k1 / 8) ≤ i → i < j →
          state_bit_b fs.dev fs.page_size_exponent i = false := by
        intro i h1 h2
        rcases Nat.lt_or_ge i k1 with h | h
        · exact hlow i h1 h
        · have := hmin i h2
          rw [Bool.and_eq_false_iff] at this
          rcases this with hd | hd
          · exfalso; rw [decide_eq_false_iff_not] at hd; omega
          · exact hd
      have hz : ∀ v, k1 / 8 ≤ v → v < j / 8 →
          fs.dev.mem (v / fs.page_size + 1) (v % fs.page_size) % 256 = 0 := by
        intro v hv1 hv2
        rw [hP]
        apply byte_zero_of_state_bits
        intro t ht
        apply hbitzero
        · omega
        · omega
      have hnz : fs.dev.mem (j / 8 / fs.page_size + 1) (j / 8 % fs.page_size) % 256 ≠ 0 := by
        rw [hP]
        exact byte_ne_zero_of_state_bit fs.dev _ j hsetj
      obtain ⟨n, hscan⟩ := fneb_scan_pages_found
        (fs.state_section_size - k1 / 8 / 2 ^ fs.page_size_exponent) fs
        (k1 / 8 / 2 ^ fs.page_size_exponent) (k1 / 8 % 2 ^ fs.page_size_exponent) (j / 8)
        hEF hP rfl (by rw [hP]; exact Nat.le_of_lt (Nat.mod_lt _ hPpos))
        (by rw [hstart]; exact Nat.div_le_div_right hk1j)
        (by have h1 : j < 8 * (fs.state_section_size * 2 ^ fs.page_size_exponent) := by
              calc j < 8 * 2 ^ fs.page_size_exponent * fs.state_section_size := hjlt
                _ = 8 * (fs.state_section_size * 2 ^ fs.page_size_exponent) := by ring
            rw [hP]
            omega)
        (by rw [hstart]; exact hz)
        hnz
      have hmsb : msb_mask_count
          (fs.dev.mem (j / 8 / fs.page_size + 1) (j / 8 % fs.page_size) % 256) = j % 8 := by
        rw [hP]
        apply msb_eq_mod fs.dev _ j hsetj
        intro t ht
        apply hbitzero
        · have : k1 / 8 ≤ j / 8 := Nat.div_le_div_right hk1j
          omega
        · omega
      have hjval : 8 * (j / 8) + msb_mask_count
          (fs.dev.mem (j / 8 / fs.page_size + 1) (j / 8 % fs.page_size) % 256) = j := by
        rw [hmsb]
        omega
      refine ⟨n, ?_⟩
      rw [tefs_find_next_empty_block]
      simp only [hcp_eq, hcb_eq]
      rw [hscan]
      simp only [hjval]
  | none =>
      have hall := List.find?_eq_none.mp hls
      have hnobit : ∀ i, k1 ≤ i →
          i < 8 * 2 ^ fs.page_size_exponent * fs.state_section_size →
          state_bit_b fs.dev fs.page_size_exponent i = false := by
        intro i h1 h2
        have := hall i (by simp only [List.mem_range]; omega)
        rw [Bool.and_eq_true, decide_eq_true_iff] at this
        by_contra hc
        exact this ⟨h1, by simpa using hc⟩
      obtain ⟨n, hscan⟩ := fneb_scan_pages_none
        (fs.state_section_size - k1 / 8 / 2 ^ fs.page_size_exponent) fs
        (k1 / 8 / 2 ^ fs.page_size_exponent) (k1 / 8 % 2 ^ fs.page_size_exponent)
        hEF rfl
        (by intro p b hp1 hp2 hb hcb
            have hdm : (p * fs.page_size + b) / fs.page_size = p :=
              mul_add_div_lt hPpos' hb
            have hdm2 : (p * fs.page_size + b) % fs.page_size = b :=
              mul_add_mod_lt hb
            have hv : k1 / 8 ≤ p * fs.page_size + b := by
              rcases Nat.eq_or_lt_of_le hp1 with he | hl
              · have := hcb he.symm
                rw [← hstart]
                have h2 : k1 / 8 % 2 ^ fs.page_size_exponent ≤ b := this
                have h3 : k1 / 8 / 2 ^ fs.page_size_exponent * fs.page_size ≤
                    p * fs.page_size := Nat.mul_le_mul_right _ (by omega)
                omega
              · have h1 : (k1 / 8 / 2 ^ fs.page_size_exponent + 1) * fs.page_size ≤
                    p * fs.page_size := Nat.mul_le_mul_right _ (by omega)
                rw [Nat.succ_mul] at h1
                have h2 : k1 / 8 % 2 ^ fs.page_size_exponent < fs.page_size := by
                  rw [hP]; exact Nat.mod_lt _ hPpos
                rw [← hstart]
                omega
            have hvlt : p * fs.page_size + b <
                fs.state_section_size * fs.page_size := by
              have h1 : (p + 1) * fs.page_size ≤
                  fs.state_section_size * fs.page_size :=
                Nat.mul_le_mul_right _ (by omega)
              rw [Nat.succ_mul] at h1
              omega
            have h0 : fs.dev.mem
                ((p * fs.page_size + b) / 2 ^ fs.page_size_exponent + 1)
                ((p * fs.page_size + b) % 2 ^ fs.page_size_exponent) % 256 = 0 := by
              apply byte_zero_of_state_bits
              intro t ht
              rcases Nat.lt_or_ge (8 * (p * fs.page_size + b) + t) k1 with hc | hc
              · apply hlow
                · omega
                · exact hc
              · apply hnobit _ hc
                have hA : 8 * 2 ^ fs.page_size_exponent * fs.state_section_size =
                    8 * (fs.state_section_size * fs.page_size) := by
                  rw [hP]; ring
                omega
            rw [← hP] at h0
            rw [hdm, hdm2] at h0
            exact h0)
      refine ⟨n, ?_⟩
      rw [tefs_find_next_empty_block]
      simp only [hcp_eq, hcb_eq]
      rw [hscan]

/-- Claim C6 (corrected, amended): tefs_reserve_device_block fails with
    DeviceFull iff is_block_pool_empty was already set; when the flag is
    clear and, as the cursor invariant guarantees, the state bit at
    next_free_bit is 1 while the lower bits of the cursor's byte are 0, it
    clears exactly that bit, returns the block address
    1 + state_section_size + next_free_bit * block_size, and advances the
    cursor to the next 1-bit at or after next_free_bit + 1 (setting
    pool_empty and leaving the cursor at next_free_bit + 1 when the scan
    reaches the end of the state section).  When the flag is clear but the
    bit at the cursor is already 0, the function returns OK without
    reserving anything (see claim C9). -/
theorem c6_reserve_deviceFull_iff_and_advances_cursor (fs : FS)
    (hEF : ErrorFree fs.dev)
    (hP : fs.page_size = 2 ^ fs.page_size_exponent)
    (hpse : fs.page_size_exponent ≤ 15) :
    (fs.is_block_pool_empty ≠ 0 →
      tefs_reserve_device_block fs = (fs, none, TEFS_ERR_DEVICE_FULL)) ∧
    (fs.is_block_pool_empty = 0 →
      state_bit_b fs.dev fs.page_size_exponent fs.state_section_bit = true →
      (∀ j, 8 * (fs.state_section_bit / 8) ≤ j → j < fs.state_section_bit →
        state_bit_b fs.dev fs.page_size_exponent j = false) →
      ∃ fs', tefs_reserve_device_block fs =
          (fs', some (MULT_BY_POW_2_EXP fs.state_section_bit fs.block_size_exponent +
            (1 + fs.state_section_size)), TEFS_ERR_OK) ∧
        state_bit_b fs'.dev fs.page_size_exponent fs.state_section_bit = false ∧
        (∀ j, j ≠ fs.state_section_bit →
          state_bit_b fs'.dev fs.page_size_exponent j =
            state_bit_b fs.dev fs.page_size_exponent j) ∧
        (match least_set_bit fs'.dev fs.page_size_exponent fs.state_section_size
            (fs.state_section_bit + 1) with
         | some j => fs'.state_section_bit = j ∧ fs'.is_block_pool_empty = 0
         | none => fs'.state_section_bit = fs.state_section_bit + 1 ∧
             fs'.is_block_pool_empty = 1)) := by
  constructor
  · intro h
    rw [tefs_reserve_device_block, if_pos h]
  · intro h0 hbit hlow
    rw [tefs_reserve_device_block, if_neg (by omega)]
    have hPpos : (0:ℕ) < 2 ^ fs.page_size_exponent := pow_pos (by norm_num) _
    have hsolt : fs.state_section_bit / 8 % 2 ^ fs.page_size_exponent < 65536 :=
      lt_of_lt_of_le (Nat.mod_lt _ hPpos)
        (le_trans (Nat.pow_le_pow_right (by norm_num) hpse) (by norm_num))
    have hsp_eq : DIV_BY_POW_2_EXP (DIV_BY_POW_2_EXP fs.state_section_bit 3)
        fs.page_size_exponent + 1 = fs.state_section_bit / 8 / 2 ^ fs.page_size_exponent + 1 := by
      rw [DIV_BY_POW_2_EXP_3, DIV_BY_POW_2_EXP_eq]
    have hso_eq : u16 (MOD_BY_POW_2 (DIV_BY_POW_2_EXP fs.state_section_bit 3) fs.page_size) =
        fs.state_section_bit / 8 % 2 ^ fs.page_size_exponent := by
      rw [DIV_BY_POW_2_EXP_3, hP, MOD_BY_POW_2_pow, u16_eq_of_lt hsolt]
    rw [hsp_eq, hso_eq]
    simp only [device_read_errorFree _ hEF, readBytes_one, fromLE_one, mod256_mod256,
      POW_2_TO_eq, MOD_BY_POW_2_8]
    have hbit' : ¬(fs.dev.mem (fs.state_section_bit / 8 / 2 ^ fs.page_size_exponent + 1)
        (fs.state_section_bit / 8 % 2 ^ fs.page_size_exponent) % 256 &&&
        2 ^ (7 - fs.state_section_bit % 8) = 0) := by
      rw [state_bit_b] at hbit
      simpa using hbit
    rw [if_neg hbit']
    -- the state of the allocator after the byte with the cleared bit is
    -- written back and the cursor is incremented
    set d1 : Device := device_write (fs.dev.bumpReads 1)
      (fs.state_section_bit / 8 / 2 ^ fs.page_size_exponent + 1)
      (fs.state_section_bit / 8 % 2 ^ fs.page_size_exponent)
      [fs.dev.mem (fs.state_section_bit / 8 / 2 ^ fs.page_size_exponent + 1)
          (fs.state_section_bit / 8 % 2 ^ fs.page_size_exponent) % 256 &&&
        (255 - 2 ^ (7 - fs.state_section_bit % 8))] with hd1
    have hclear := state_bit_after_clear (fs.dev.bumpReads 1) fs.page_size_exponent
      fs.state_section_bit
    simp only [bumpReads_mem] at hclear
    rw [← hd1] at hclear
    obtain ⟨hcleared, hpres⟩ := hclear
    have hpres' : ∀ j, j ≠ fs.state_section_bit →
        state_bit_b d1 fs.page_size_exponent j = state_bit_b fs.dev fs.page_size_exponent j := by
      intro j hj
      rw [hpres j hj]
      exact state_bit_b_congr _ _ rfl _ _
    have hEF1 : ErrorFree d1 := fun n => hEF n
    have hlow1 : ∀ j, 8 * ((fs.state_section_bit + 1) / 8) ≤ j →
        j < fs.state_section_bit + 1 →
        state_bit_b d1 fs.page_size_exponent j = false := by
      intro j h1 h2
      rcases Nat.lt_or_ge j fs.state_section_bit with hj | hj
      · rw [hpres' j (by omega)]
        apply hlow j _ hj
        omega
      · have : j = fs.state_section_bit := by omega
        rw [this]
        exact hcleared
    have hspec := tefs_find_next_empty_block_spec
      { fs with dev := d1, state_section_bit := fs.state_section_bit + 1 }
      (fs.state_section_bit + 1) hEF1 hP hpse hlow1
    cases hls : least_set_bit d1 fs.page_size_exponent fs.state_section_size
        (fs.state_section_bit + 1) with
    | some j =>
        rw [hls] at hspec
        obtain ⟨n, hfneb⟩ := hspec
        rw [hfneb]
        dsimp only [device_flush]
        rw [if_neg (by norm_num [TEFS_ERR_OK])]
        refine ⟨_, rfl, ?_, ?_, ?_⟩
        · show state_bit_b (d1.bumpReads n) fs.page_size_exponent fs.state_section_bit = false
          rw [state_bit_b_congr (d1.bumpReads n) d1 rfl]
          exact hcleared
        · intro j' hj'
          show state_bit_b (d1.bumpReads n) fs.page_size_exponent j' = _
          rw [state_bit_b_congr (d1.bumpReads n) d1 rfl]
          exact hpres' j' hj'
        · show (match least_set_bit (d1.bumpReads n) fs.page_size_exponent
              fs.state_section_size (fs.state_section_bit + 1) with
            | some j0 => j = j0 ∧ fs.is_block_pool_empty = 0
            | none => j = fs.state_section_bit + 1 ∧ fs.is_block_pool_empty = 1)
          rw [least_set_bit_congr (d1.bumpReads n) d1 rfl, hls]
          exact ⟨rfl, h0⟩
    | none =>
        rw [hls] at hspec
        obtain ⟨n, hfneb⟩ := hspec
        rw [hfneb]
        dsimp only [device_flush]
        rw [if_neg (by norm_num [TEFS_ERR_OK])]
        refine ⟨_, rfl, ?_, ?_, ?_⟩
        · show state_bit_b (d1.bumpReads n) fs.page_size_exponent fs.state_section_bit = false
          rw [state_bit_b_congr (d1.bumpReads n) d1 rfl]
          exact hcleared
        · intro j' hj'
          show state_bit_b (d1.bumpReads n) fs.page_size_exponent j' = _
          rw [state_bit_b_congr (d1.bumpReads n) d1 rfl]
          exact hpres' j' hj'
        · show (match least_set_bit (d1.bumpReads n) fs.page_size_exponent
              fs.state_section_size (fs.state_section_bit + 1) with
            | some j0 => fs.state_section_bit + 1 = j0 ∧ (1:ℕ) = 0
            | none => fs.state_section_bit + 1 = fs.state_section_bit + 1 ∧ (1:ℕ) = 1)
          rw [least_set_bit_congr (d1.bumpReads n) d1 rfl, hls]
          exact ⟨rfl, rfl⟩

/-- Witness for c6_reserve_deviceFull_iff_and_advances_cursor at the
    concrete state c6_wit_state. -/
theorem c6_reserve_deviceFull_iff_and_advances_cursor_witness :
    (ErrorFree c6_wit_state.dev ∧
      c6_wit_state.page_size = 2 ^ c6_wit_state.page_size_exponent ∧
      c6_wit_state.page_size_exponent ≤ 15) ∧
    ((c6_wit_state.is_block_pool_empty ≠ 0 →
      tefs_reserve_device_block c6_wit_state = (c6_wit_state, none, TEFS_ERR_DEVICE_FULL)) ∧
    (c6_wit_state.is_block_pool_empty = 0 →
      state_bit_b c6_wit_state.dev c6_wit_state.page_size_exponent
        c6_wit_state.state_section_bit = true →
      (∀ j, 8 * (c6_wit_state.state_section_bit / 8) ≤ j →
        j < c6_wit_state.state_section_bit →
        state_bit_b c6_wit_state.dev c6_wit_state.page_size_exponent j = false) →
      ∃ fs', tefs_reserve_device_block c6_wit_state =
          (fs', some (MULT_BY_POW_2_EXP c6_wit_state.state_section_bit
              c6_wit_state.block_size_exponent + (1 + c6_wit_state.state_section_size)),
            TEFS_ERR_OK) ∧
        state_bit_b fs'.dev c6_wit_state.page_size_exponent
          c6_wit_state.state_section_bit = false ∧
        (∀ j, j ≠ c6_wit_state.state_section_bit →
          state_bit_b fs'.dev c6_wit_state.page_size_exponent j =
            state_bit_b c6_wit_state.dev c6_wit_state.page_size_exponent j) ∧
        (match least_set_bit fs'.dev c6_wit_state.page_size_exponent
            c6_wit_state.state_section_size (c6_wit_state.state_section_bit + 1) with
         | some j => fs'.state_section_bit = j ∧ fs'.is_block_pool_empty = 0
         | none => fs'.state_section_bit = c6_wit_state.state_section_bit + 1 ∧
             fs'.is_block_pool_empty = 1))) :=
  ⟨⟨fun _ => rfl, rfl, by decide⟩,
    c6_reserve_deviceFull_iff_and_advances_cursor c6_wit_state (fun _ => rfl) rfl
      (by decide)⟩

/-- Witness for c7_hash_matches_djb2a_on_ascii at the concrete name
    "playwright" (whose DJB2a hash is 195669366, as in the repository's
    unit test). -/
theorem c7_hash_matches_djb2a_on_ascii_witness :
    (∀ b ∈ [112, 108, 97, 121, 119, 114, 105, 103, 104, 116], 0 < b ∧ b < 128) ∧
    (hash_string [112, 108, 97, 121, 119, 114, 105, 103, 104, 116] 4 =
        djb2a_spec [112, 108, 97, 121, 119, 114, 105, 103, 104, 116] 4 ∧
      (4 = 4 → hash_string [112, 108, 97, 121, 119, 114, 105, 103, 104, 116] 4 ≠ 0)) :=
  ⟨by decide, c7_hash_matches_djb2a_on_ascii _ 4 (by decide)⟩

/-! ### Shape and status of the allocator calls

    Used by the tefs_write proofs: each allocator function changes only the
    dev, state_section_bit and is_block_pool_empty components of the state,
    returns status OK, READ or DEVICE_FULL, and cannot return READ on an
    error-free device. -/

theorem device_read_fail (d : Device) (h : d.failAt d.readCount = true) (p o l : ℕ) :
    device_read d p o l = (d.bumpReads 1, none) := by
  rw [device_read, if_pos h]; rfl

theorem device_read_succ (d : Device) (h : d.failAt d.readCount = false) (p o l : ℕ) :
    device_read d p o l = (d.bumpReads 1, some (d.readBytes p o l)) := by
  rw [device_read, if_neg (by simp [h])]; rfl

theorem fneb_scan_bytes_shape (fuel : ℕ) (fs : FS) (cp cb : ℕ) :
    ∃ n o, fneb_scan_bytes fs cp cb fuel = ({ fs with dev := fs.dev.bumpReads n }, o) ∧
      (ErrorFree fs.dev → o ≠ ScanOutcome.readErr) := by
  induction fuel generalizing fs cb with
  | zero => exact ⟨0, .nextPage, by simp [fneb_scan_bytes, bumpReads_zero], fun _ => by simp⟩
  | succ fuel ih =>
      cases hf : fs.dev.failAt fs.dev.readCount with
      | true =>
          refine ⟨1, .readErr, ?_, fun hEF => absurd hf (by simp [hEF fs.dev.readCount])⟩
          simp only [fneb_scan_bytes, device_read_fail fs.dev hf]
      | false =>
          rcases eq_or_ne (fromLE (fs.dev.readBytes (cp + 1) cb 1)) 0 with hz | hnz
          · obtain ⟨n, o, heq, ho⟩ := ih { fs with dev := fs.dev.bumpReads 1 } (cb + 1)
            refine ⟨1 + n, o, ?_, fun hEF => ho (errorFree_bumpReads _ _ hEF)⟩
            simp only [fneb_scan_bytes, device_read_succ fs.dev hf]
            rw [if_neg (by simp [hz]), heq]
            simp only [bumpReads_bumpReads]
          · refine ⟨1, .found (MULT_BY_POW_2_EXP cp (fs.page_size_exponent + 3) +
                MULT_BY_POW_2_EXP cb 3 +
                msb_mask_count (fromLE (fs.dev.readBytes (cp + 1) cb 1))), ?_,
              fun _ => by simp⟩
            simp only [fneb_scan_bytes, device_read_succ fs.dev hf]
            rw [if_pos hnz]

theorem fneb_scan_pages_shape (fuelP : ℕ) (fs : FS) (cp cb : ℕ) :
    ∃ n p ob st, fneb_scan_pages fs cp cb fuelP =
      ({ fs with dev := fs.dev.bumpReads n, is_block_pool_empty := p }, ob, st) ∧
      (st = TEFS_ERR_OK ∨ st = TEFS_ERR_READ) ∧
      (ErrorFree fs.dev → st = TEFS_ERR_OK) := by
  induction fuelP generalizing fs cp cb with
  | zero =>
      refine ⟨0, 1, none, TEFS_ERR_OK, ?_, Or.inl rfl, fun _ => rfl⟩
      rw [fneb_scan_pages, bumpReads_zero]
  | succ fuelP ih =>
      obtain ⟨n, o, hsb, ho⟩ := fneb_scan_bytes_shape (fs.page_size - cb) fs cp cb
      cases o with
      | readErr =>
          refine ⟨n, fs.is_block_pool_empty, none, TEFS_ERR_READ, ?_, Or.inr rfl,
            fun hEF => absurd (ho hEF) (by simp)⟩
          rw [fneb_scan_pages, hsb]
      | found bit =>
          refine ⟨n, fs.is_block_pool_empty, some bit, TEFS_ERR_OK, ?_, Or.inl rfl,
            fun _ => rfl⟩
          rw [fneb_scan_pages, hsb]
      | nextPage =>
          obtain ⟨m, p, ob, st, hrec, hst, hef⟩ :=
            ih { fs with dev := fs.dev.bumpReads n } (cp + 1) 0
          refine ⟨n + m, p, ob, st, ?_, hst, fun hEF => hef (errorFree_bumpReads _ _ hEF)⟩
          rw [fneb_scan_pages, hsb]
          show fneb_scan_pages { fs with dev := fs.dev.bumpReads n } (cp + 1) 0 fuelP = _
          rw [hrec]
          simp only [bumpReads_bumpReads]

theorem tefs_find_next_empty_block_shape (fs : FS) (sb : ℕ) :
    ∃ n p bit st, tefs_find_next_empty_block fs sb =
      ({ fs with dev := fs.dev.bumpReads n, is_block_pool_empty := p }, bit, st) ∧
      (st = TEFS_ERR_OK ∨ st = TEFS_ERR_READ) ∧
      (ErrorFree fs.dev → st = TEFS_ERR_OK) := by
  obtain ⟨n, p, ob, st, hsp, hst, hef⟩ :=
    fneb_scan_pages_shape
      (fs.state_section_size -
        DIV_BY_POW_2_EXP (DIV_BY_POW_2_EXP sb 3) fs.page_size_exponent) fs
      (DIV_BY_POW_2_EXP (DIV_BY_POW_2_EXP sb 3) fs.page_size_exponent)
      (u16 (MOD_BY_POW_2 (DIV_BY_POW_2_EXP sb 3) fs.page_size))
  cases ob with
  | some bit =>
      exact ⟨n, p, bit, st, by simp only [tefs_find_next_empty_block, hsp], hst, hef⟩
  | none =>
      exact ⟨n, p, sb, st, by simp only [tefs_find_next_empty_block, hsp], hst, hef⟩

theorem tefs_reserve_device_block_shape (fs : FS) :
    ∃ d c p opt st, tefs_reserve_device_block fs =
      ({ fs with dev := d, state_section_bit := c, is_block_pool_empty := p }, opt, st) ∧
      (st = TEFS_ERR_OK ∨ st = TEFS_ERR_READ ∨ st = TEFS_ERR_DEVICE_FULL) ∧
      (ErrorFree fs.dev → ErrorFree d) ∧
      (ErrorFree fs.dev → fs.is_block_pool_empty = 0 → st = TEFS_ERR_OK) := by
  by_cases hpool : fs.is_block_pool_empty ≠ 0
  · refine ⟨fs.dev, fs.state_section_bit, fs.is_block_pool_empty, none,
      TEFS_ERR_DEVICE_FULL, ?_, Or.inr (Or.inr rfl), fun h => h,
      fun _ h0 => absurd h0 hpool⟩
    rw [tefs_reserve_device_block, if_pos hpool]
  · cases hf : fs.dev.failAt fs.dev.readCount with
    | true =>
        refine ⟨fs.dev.bumpReads 1, fs.state_section_bit, fs.is_block_pool_empty, none,
          TEFS_ERR_READ, ?_, Or.inr (Or.inl rfl),
          fun hEF => errorFree_bumpReads _ _ hEF,
          fun hEF _ => absurd hf (by simp [hEF fs.dev.readCount])⟩
        simp only [tefs_reserve_device_block, if_neg hpool, device_read_fail fs.dev hf]
    | false =>
        have hread := device_read_succ fs.dev hf
          (DIV_BY_POW_2_EXP (DIV_BY_POW_2_EXP fs.state_section_bit 3)
              fs.page_size_exponent + 1)
          (u16 (MOD_BY_POW_2 (DIV_BY_POW_2_EXP fs.state_section_bit 3) fs.page_size)) 1
        rcases eq_or_ne
            (fromLE (fs.dev.readBytes
                (DIV_BY_POW_2_EXP (DIV_BY_POW_2_EXP fs.state_section_bit 3)
                    fs.page_size_exponent + 1)
                (u16 (MOD_BY_POW_2 (DIV_BY_POW_2_EXP fs.state_section_bit 3)
                    fs.page_size)) 1) &&&
              POW_2_TO (7 - MOD_BY_POW_2 fs.state_section_bit 8)) 0 with hbz | hbnz
        · refine ⟨fs.dev.bumpReads 1, fs.state_section_bit, fs.is_block_pool_empty, none,
            TEFS_ERR_OK, ?_, Or.inl rfl, fun hEF => errorFree_bumpReads _ _ hEF,
            fun _ _ => rfl⟩
          simp only [tefs_reserve_device_block, if_neg hpool, hread]
          rw [if_pos hbz]
        · obtain ⟨n, p, bit, st, hfn, hst, hef⟩ :=
            tefs_find_next_empty_block_shape
              { fs with
                dev := (device_write (fs.dev.bumpReads 1)
                  (DIV_BY_POW_2_EXP (DIV_BY_POW_2_EXP fs.state_section_bit 3)
                      fs.page_size_exponent + 1)
                  (u16 (MOD_BY_POW_2 (DIV_BY_POW_2_EXP fs.state_section_bit 3)
                      fs.page_size))
                  [fromLE (fs.dev.readBytes
                      (DIV_BY_POW_2_EXP (DIV_BY_POW_2_EXP fs.state_section_bit 3)
                          fs.page_size_exponent + 1)
                      (u16 (MOD_BY_POW_2 (DIV_BY_POW_2_EXP fs.state_section_bit 3)
                          fs.page_size)) 1) &&&
                    (255 - POW_2_TO (7 - MOD_BY_POW_2 fs.state_section_bit 8))])
                state_section_bit := fs.state_section_bit + 1 }
              (fs.state_section_bit + 1)
          rcases hst with hok | hrd
          · subst hok
            refine ⟨(device_write (fs.dev.bumpReads 1)
                (DIV_BY_POW_2_EXP (DIV_BY_POW_2_EXP fs.state_section_bit 3)
                    fs.page_size_exponent + 1)
                (u16 (MOD_BY_POW_2 (DIV_BY_POW_2_EXP fs.state_section_bit 3)
                    fs.page_size))
                [fromLE (fs.dev.readBytes
                    (DIV_BY_POW_2_EXP (DIV_BY_POW_2_EXP fs.state_section_bit 3)
                        fs.page_size_exponent + 1)
                    (u16 (MOD_BY_POW_2 (DIV_BY_POW_2_EXP fs.state_section_bit 3)
                        fs.page_size)) 1) &&&
                  (255 - POW_2_TO (7 - MOD_BY_POW_2 fs.state_section_bit 8))]).bumpReads n,
              bit, p,
              some (MULT_BY_POW_2_EXP fs.state_section_bit fs.block_size_exponent +
                (1 + fs.state_section_size)), TEFS_ERR_OK, ?_, Or.inl rfl,
              fun hEF => errorFree_bumpReads _ _
                (errorFree_device_write _ _ _ _ (errorFree_bumpReads _ _ hEF)),
              fun _ _ => rfl⟩
            simp only [tefs_reserve_device_block, if_neg hpool, hread, if_neg hbnz,
              hfn, if_neg (show ¬(TEFS_ERR_OK ≠ 0) by norm_num [TEFS_ERR_OK]),
              device_flush]
          · subst hrd
            refine ⟨(device_write (fs.dev.bumpReads 1)
                (DIV_BY_POW_2_EXP (DIV_BY_POW_2_EXP fs.state_section_bit 3)
                    fs.page_size_exponent + 1)
                (u16 (MOD_BY_POW_2 (DIV_BY_POW_2_EXP fs.state_section_bit 3)
                    fs.page_size))
                [fromLE (fs.dev.readBytes
                    (DIV_BY_POW_2_EXP (DIV_BY_POW_2_EXP fs.state_section_bit 3)
                        fs.page_size_exponent + 1)
                    (u16 (MOD_BY_POW_2 (DIV_BY_POW_2_EXP fs.state_section_bit 3)
                        fs.page_size)) 1) &&&
                  (255 - POW_2_TO (7 - MOD_BY_POW_2 fs.state_section_bit 8))]).bumpReads n,
              bit, p,
              some (MULT_BY_POW_2_EXP fs.state_section_bit fs.block_size_exponent +
                (1 + fs.state_section_size)), TEFS_ERR_READ, ?_, Or.inr (Or.inl rfl),
              fun hEF => errorFree_bumpReads _ _
                (errorFree_device_write _ _ _ _ (errorFree_bumpReads _ _ hEF)),
              fun hEF _ => by
                have := hef (errorFree_device_write _ _ _ _
                  (errorFree_bumpReads _ _ hEF))
                norm_num [TEFS_ERR_READ, TEFS_ERR_OK] at this⟩
            simp only [tefs_reserve_device_block, if_neg hpool, hread, if_neg hbnz,
              hfn, if_pos (show TEFS_ERR_READ ≠ 0 by norm_num [TEFS_ERR_READ])]

/-- When the pool is not empty, the device is error-free and the state bit
    at the cursor is set, reserve clears that bit (writing the byte back),
    returns the block address cursor * block_size + (1 + state_section_size)
    and status OK; the device performed the byte write plus some reads. -/
theorem tefs_reserve_device_block_bitset (fs : FS) (hEF : ErrorFree fs.dev)
    (hpool : fs.is_block_pool_empty = 0)
    (hbnz : fromLE (fs.dev.readBytes
        (DIV_BY_POW_2_EXP (DIV_BY_POW_2_EXP fs.state_section_bit 3)
            fs.page_size_exponent + 1)
        (u16 (MOD_BY_POW_2 (DIV_BY_POW_2_EXP fs.state_section_bit 3)
            fs.page_size)) 1) &&&
      POW_2_TO (7 - MOD_BY_POW_2 fs.state_section_bit 8) ≠ 0) :
    ∃ n c p, tefs_reserve_device_block fs =
      ({ fs with
          dev := (device_write (fs.dev.bumpReads 1)
            (DIV_BY_POW_2_EXP (DIV_BY_POW_2_EXP fs.state_section_bit 3)
                fs.page_size_exponent + 1)
            (u16 (MOD_BY_POW_2 (DIV_BY_POW_2_EXP fs.state_section_bit 3)
                fs.page_size))
            [fromLE (fs.dev.readBytes
                (DIV_BY_POW_2_EXP (DIV_BY_POW_2_EXP fs.state_section_bit 3)
                    fs.page_size_exponent + 1)
                (u16 (MOD_BY_POW_2 (DIV_BY_POW_2_EXP fs.state_section_bit 3)
                    fs.page_size)) 1) &&&
              (255 - POW_2_TO (7 - MOD_BY_POW_2 fs.state_section_bit 8))]).bumpReads n
          state_section_bit := c
          is_block_pool_empty := p },
        some (MULT_BY_POW_2_EXP fs.state_section_bit fs.block_size_exponent +
          (1 + fs.state_section_size)), TEFS_ERR_OK) := by
  have hpool' : ¬fs.is_block_pool_empty ≠ 0 := by omega
  have hread := device_read_succ fs.dev (hEF fs.dev.readCount)
    (DIV_BY_POW_2_EXP (DIV_BY_POW_2_EXP fs.state_section_bit 3)
        fs.page_size_exponent + 1)
    (u16 (MOD_BY_POW_2 (DIV_BY_POW_2_EXP fs.state_section_bit 3) fs.page_size)) 1
  obtain ⟨n, p, bit, st, hfn, hst, hef⟩ :=
    tefs_find_next_empty_block_shape
      { fs with
        dev := (device_write (fs.dev.bumpReads 1)
          (DIV_BY_POW_2_EXP (DIV_BY_POW_2_EXP fs.state_section_bit 3)
              fs.page_size_exponent + 1)
          (u16 (MOD_BY_POW_2 (DIV_BY_POW_2_EXP fs.state_section_bit 3)
              fs.page_size))
          [fromLE (fs.dev.readBytes
              (DIV_BY_POW_2_EXP (DIV_BY_POW_2_EXP fs.state_section_bit 3)
                  fs.page_size_exponent + 1)
              (u16 (MOD_BY_POW_2 (DIV_BY_POW_2_EXP fs.state_section_bit 3)
                  fs.page_size)) 1) &&&
            (255 - POW_2_TO (7 - MOD_BY_POW_2 fs.state_section_bit 8))])
        state_section_bit := fs.state_section_bit + 1 }
      (fs.state_section_bit + 1)
  have hstOK : st = TEFS_ERR_OK := hef
    (errorFree_device_write _ _ _ _ (errorFree_bumpReads _ _ hEF))
  subst hstOK
  refine ⟨n, bit, p, ?_⟩
  simp only [tefs_reserve_device_block, if_neg hpool', hread, if_neg hbnz, hfn,
    if_neg (show ¬(TEFS_ERR_OK ≠ 0) by norm_num [TEFS_ERR_OK]), device_flush]

/-! ### Shape and status of the tefs_write data phase -/

theorem tefs_write_resolve_child_shape (fs : FS) (f : file_t) (pg : ℕ) :
    ∃ d c p f' r, tefs_write_resolve_child fs f pg =
      ({ fs with dev := d, state_section_bit := c, is_block_pool_empty := p }, f', r) ∧
      f'.eof_page = f.eof_page ∧ f'.eof_byte = f.eof_byte ∧
      f'.is_file_size_consistent = f.is_file_size_consistent ∧
      (r = none ∨ r = some TEFS_ERR_READ ∨ r = some TEFS_ERR_FILE_FULL ∨
        r = some TEFS_ERR_DEVICE_FULL) ∧
      (ErrorFree fs.dev → ErrorFree d) := by
  simp only [tefs_write_resolve_child]
  by_cases hm : DIV_BY_POW_2_EXP f.data_block_number fs.addresses_per_block_exponent ≠
      u16 (DIV_BY_POW_2_EXP pg (fs.block_size_exponent + fs.addresses_per_block_exponent))
  · simp only [if_pos hm]
    by_cases hff : fs.block_size ≤ (tefs_map_page_to_root_index_address fs pg).1
    · simp only [if_pos hff]
      exact ⟨fs.dev, fs.state_section_bit, fs.is_block_pool_empty, f,
        some TEFS_ERR_FILE_FULL, rfl, rfl, rfl, rfl,
        Or.inr (Or.inr (Or.inl rfl)), fun h => h⟩
    · simp only [if_neg hff]
      by_cases hc : f.is_file_size_consistent ≠ 0
      · simp only [if_pos hc]
        cases hfail : fs.dev.failAt fs.dev.readCount with
        | true =>
            simp only [device_read_fail fs.dev hfail]
            exact ⟨fs.dev.bumpReads 1, fs.state_section_bit, fs.is_block_pool_empty,
              { f with child_index_block_address := 0 }, some TEFS_ERR_READ, rfl,
              rfl, rfl, rfl, Or.inr (Or.inl rfl),
              fun hEF => errorFree_bumpReads _ _ hEF⟩
        | false =>
            simp only [device_read_succ fs.dev hfail]
            exact ⟨fs.dev.bumpReads 1, fs.state_section_bit, fs.is_block_pool_empty,
              { f with child_index_block_address := fromLE (fs.dev.readBytes
                  (f.root_index_block_address +
                    (tefs_map_page_to_root_index_address fs pg).1)
                  (tefs_map_page_to_root_index_address fs pg).2 fs.address_size) },
              none, rfl, rfl, rfl, rfl, Or.inl rfl,
              fun hEF => errorFree_bumpReads _ _ hEF⟩
      · simp only [if_neg hc]
        obtain ⟨d0, c0, p0, opt, st, hres, hst, hefd, _⟩ :=
          tefs_reserve_device_block_shape fs
        rcases hst with h | h | h <;> subst h
        · simp only [hres, if_neg (show ¬(TEFS_ERR_OK ≠ 0) by norm_num [TEFS_ERR_OK])]
          exact ⟨device_write_num d0
              (f.root_index_block_address +
                (tefs_map_page_to_root_index_address fs pg).1)
              (tefs_map_page_to_root_index_address fs pg).2 fs.address_size
              (opt.getD 0),
            c0, p0, { f with child_index_block_address := opt.getD 0 }, none,
            rfl, rfl, rfl, rfl, Or.inl rfl,
            fun hEF => errorFree_device_write _ _ _ _ (hefd hEF)⟩
        · simp only [hres, if_pos (show TEFS_ERR_READ ≠ 0 by norm_num [TEFS_ERR_READ])]
          exact ⟨d0, c0, p0, { f with child_index_block_address := opt.getD 0 },
            some TEFS_ERR_READ, rfl, rfl, rfl, rfl, Or.inr (Or.inl rfl), hefd⟩
        · simp only [hres,
            if_pos (show TEFS_ERR_DEVICE_FULL ≠ 0 by norm_num [TEFS_ERR_DEVICE_FULL])]
          exact ⟨d0, c0, p0, { f with child_index_block_address := opt.getD 0 },
            some TEFS_ERR_DEVICE_FULL, rfl, rfl, rfl, rfl,
            Or.inr (Or.inr (Or.inr rfl)), hefd⟩
  · simp only [if_neg hm]
    exact ⟨fs.dev, fs.state_section_bit, fs.is_block_pool_empty, f, none,
      rfl, rfl, rfl, rfl, Or.inl rfl, fun h => h⟩

theorem tefs_write_resolve_data_shape (fs : FS) (f : file_t) (pg : ℕ) :
    ∃ d c p f' r, tefs_write_resolve_data fs f pg =
      ({ fs with dev := d, state_section_bit := c, is_block_pool_empty := p }, f', r) ∧
      f'.eof_page = f.eof_page ∧ f'.eof_byte = f.eof_byte ∧
      (r = none ∨ r = some TEFS_ERR_READ ∨ r = some TEFS_ERR_DEVICE_FULL) ∧
      (ErrorFree fs.dev → ErrorFree d) := by
  simp only [tefs_write_resolve_data]
  by_cases hc : f.is_file_size_consistent ≠ 0
  · simp only [if_pos hc]
    cases hfail : fs.dev.failAt fs.dev.readCount with
    | true =>
        simp only [device_read_fail fs.dev hfail]
        exact ⟨fs.dev.bumpReads 1, fs.state_section_bit, fs.is_block_pool_empty,
          { f with data_block_address := 0 }, some TEFS_ERR_READ, rfl, rfl, rfl,
          Or.inr (Or.inl rfl), fun hEF => errorFree_bumpReads _ _ hEF⟩
    | false =>
        simp only [device_read_succ fs.dev hfail]
        exact ⟨fs.dev.bumpReads 1, fs.state_section_bit, fs.is_block_pool_empty,
          { f with data_block_address := fromLE (fs.dev.readBytes
              (f.child_index_block_address +
                (tefs_map_page_to_child_index_address fs pg).1)
              (tefs_map_page_to_child_index_address fs pg).2 fs.address_size) },
          none, rfl, rfl, rfl, Or.inl rfl, fun hEF => errorFree_bumpReads _ _ hEF⟩
  · simp only [if_neg hc]
    obtain ⟨d0, c0, p0, opt, st, hres, hst, hefd, _⟩ :=
      tefs_reserve_device_block_shape fs
    rcases hst with h | h | h <;> subst h
    · simp only [hres, if_neg (show ¬(TEFS_ERR_OK ≠ 0) by norm_num [TEFS_ERR_OK])]
      exact ⟨device_write_num d0
          (f.child_index_block_address +
            (tefs_map_page_to_child_index_address fs pg).1)
          (tefs_map_page_to_child_index_address fs pg).2 fs.address_size
          (opt.getD 0),
        c0, p0, { f with data_block_address := opt.getD 0 }, none,
        rfl, rfl, rfl, Or.inl rfl,
        fun hEF => errorFree_device_write _ _ _ _ (hefd hEF)⟩
    · simp only [hres, if_pos (show TEFS_ERR_READ ≠ 0 by norm_num [TEFS_ERR_READ])]
      exact ⟨d0, c0, p0, { f with data_block_address := opt.getD 0 },
        some TEFS_ERR_READ, rfl, rfl, rfl, Or.inr (Or.inl rfl), hefd⟩
    · simp only [hres,
        if_pos (show TEFS_ERR_DEVICE_FULL ≠ 0 by norm_num [TEFS_ERR_DEVICE_FULL])]
      exact ⟨d0, c0, p0, { f with data_block_address := opt.getD 0 },
        some TEFS_ERR_DEVICE_FULL, rfl, rfl, rfl, Or.inr (Or.inr rfl), hefd⟩

theorem tefs_write_after_child_shape (fs : FS) (f : file_t) (pg : ℕ)
    (data : List ℕ) (off : ℕ) :
    ∃ d c p f' st, tefs_write_after_child fs f pg data off =
      ({ fs with dev := d, state_section_bit := c, is_block_pool_empty := p }, f', st) ∧
      f'.eof_page = f.eof_page ∧ f'.eof_byte = f.eof_byte ∧
      (st = TEFS_ERR_OK ∨ st = TEFS_ERR_READ ∨ st = TEFS_ERR_DEVICE_FULL) ∧
      (ErrorFree fs.dev → ErrorFree d) := by
  obtain ⟨d2, c2, p2, f2, r2, hrd, hf1, hf2, hr2, hef2⟩ :=
    tefs_write_resolve_data_shape fs f pg
  rw [tefs_write_after_child, hrd]
  rcases hr2 with h | h | h <;> subst h
  · exact ⟨device_write d2 f2.data_block_address off data, c2, p2,
      { f2 with
        data_block_number := DIV_BY_POW_2_EXP pg fs.block_size_exponent
        current_page_number := pg }, TEFS_ERR_OK, rfl, hf1, hf2, Or.inl rfl,
      fun hEF => errorFree_device_write _ _ _ _ (hef2 hEF)⟩
  · exact ⟨d2, c2, p2, f2, TEFS_ERR_READ, rfl, hf1, hf2, Or.inr (Or.inl rfl), hef2⟩
  · exact ⟨d2, c2, p2, f2, TEFS_ERR_DEVICE_FULL, rfl, hf1, hf2,
      Or.inr (Or.inr rfl), hef2⟩

theorem tefs_write_data_phase_shape (fs : FS) (f : file_t) (pg : ℕ)
    (data : List ℕ) (off : ℕ) :
    ∃ d c p f' st, tefs_write_data_phase fs f pg data off =
      ({ fs with dev := d, state_section_bit := c, is_block_pool_empty := p }, f', st) ∧
      f'.eof_page = f.eof_page ∧ f'.eof_byte = f.eof_byte ∧
      (st = TEFS_ERR_OK ∨ st = TEFS_ERR_READ ∨ st = TEFS_ERR_FILE_FULL ∨
        st = TEFS_ERR_DEVICE_FULL) ∧
      (ErrorFree fs.dev → ErrorFree d) := by
  rw [tefs_write_data_phase]
  by_cases hfast : pg = f.current_page_number ∨
      DIV_BY_POW_2_EXP pg fs.block_size_exponent = f.data_block_number
  · simp only [if_pos hfast]
    exact ⟨device_write fs.dev
        (f.data_block_address + MOD_BY_POW_2 pg fs.block_size) off data,
      fs.state_section_bit, fs.is_block_pool_empty,
      { f with current_page_number := pg }, TEFS_ERR_OK, rfl, rfl, rfl, Or.inl rfl,
      fun hEF => errorFree_device_write _ _ _ _ hEF⟩
  · simp only [if_neg hfast]
    obtain ⟨d1, c1, p1, f1, r1, hrc, he1, he2, _, hr1, hef1⟩ :=
      tefs_write_resolve_child_shape fs f pg
    rw [hrc]
    rcases hr1 with h | h | h | h <;> subst h
    · obtain ⟨d2, c2, p2, f2, st, hac, hf1, hf2, hst, hef2⟩ :=
        tefs_write_after_child_shape
          { fs with dev := d1, state_section_bit := c1, is_block_pool_empty := p1 }
          f1 pg data off
      refine ⟨d2, c2, p2, f2, st, hac, hf1.trans he1, hf2.trans he2, ?_,
        fun hEF => hef2 (hef1 hEF)⟩
      rcases hst with h | h | h
      exacts [Or.inl h, Or.inr (Or.inl h), Or.inr (Or.inr (Or.inr h))]
    · exact ⟨d1, c1, p1, f1, TEFS_ERR_READ, rfl, he1, he2, Or.inr (Or.inl rfl), hef1⟩
    · exact ⟨d1, c1, p1, f1, TEFS_ERR_FILE_FULL, rfl, he1, he2,
        Or.inr (Or.inr (Or.inl rfl)), hef1⟩
    · exact ⟨d1, c1, p1, f1, TEFS_ERR_DEVICE_FULL, rfl, he1, he2,
        Or.inr (Or.inr (Or.inr rfl)), hef1⟩

/-! ### The slow path on a size-consistent file only reads, and succeeds on
    an error-free device -/

theorem tefs_write_resolve_child_consistent (fs : FS) (f : file_t) (pg : ℕ)
    (hEF : ErrorFree fs.dev) (hc : f.is_file_size_consistent ≠ 0)
    (hpir : (tefs_map_page_to_root_index_address fs pg).1 < fs.block_size) :
    ∃ n f', tefs_write_resolve_child fs f pg =
      ({ fs with dev := fs.dev.bumpReads n }, f', none) ∧
      f'.is_file_size_consistent = f.is_file_size_consistent := by
  simp only [tefs_write_resolve_child]
  by_cases hm : DIV_BY_POW_2_EXP f.data_block_number fs.addresses_per_block_exponent ≠
      u16 (DIV_BY_POW_2_EXP pg (fs.block_size_exponent + fs.addresses_per_block_exponent))
  · simp only [if_pos hm, if_neg (not_le.mpr hpir), if_pos hc,
      device_read_succ fs.dev (hEF fs.dev.readCount)]
    exact ⟨1, _, rfl, rfl⟩
  · simp only [if_neg hm]
    exact ⟨0, f, by rw [bumpReads_zero], rfl⟩

theorem tefs_write_resolve_data_consistent (fs : FS) (f : file_t) (pg : ℕ)
    (hEF : ErrorFree fs.dev) (hc : f.is_file_size_consistent ≠ 0) :
    ∃ n f', tefs_write_resolve_data fs f pg =
      ({ fs with dev := fs.dev.bumpReads n }, f', none) := by
  simp only [tefs_write_resolve_data, if_pos hc,
    device_read_succ fs.dev (hEF fs.dev.readCount)]
  exact ⟨1, _, rfl⟩

theorem tefs_write_after_child_consistent (fs : FS) (f : file_t) (pg : ℕ)
    (data : List ℕ) (off : ℕ) (hEF : ErrorFree fs.dev)
    (hc : f.is_file_size_consistent ≠ 0) :
    ∃ dv f', tefs_write_after_child fs f pg data off =
      ({ fs with dev := dv }, f', TEFS_ERR_OK) ∧ ErrorFree dv := by
  obtain ⟨n2, f2, hrd⟩ := tefs_write_resolve_data_consistent fs f pg hEF hc
  rw [tefs_write_after_child, hrd]
  exact ⟨_, _, rfl, errorFree_device_write _ _ _ _ (errorFree_bumpReads _ _ hEF)⟩

theorem tefs_write_data_phase_consistent_ok (fs : FS) (f : file_t) (pg : ℕ)
    (data : List ℕ) (off : ℕ) (hEF : ErrorFree fs.dev)
    (hc : f.is_file_size_consistent ≠ 0)
    (hpir : (tefs_map_page_to_root_index_address fs pg).1 < fs.block_size) :
    ∃ dv f', tefs_write_data_phase fs f pg data off =
      ({ fs with dev := dv }, f', TEFS_ERR_OK) ∧ ErrorFree dv := by
  rw [tefs_write_data_phase]
  by_cases hfast : pg = f.current_page_number ∨
      DIV_BY_POW_2_EXP pg fs.block_size_exponent = f.data_block_number
  · simp only [if_pos hfast]
    exact ⟨_, _, rfl, errorFree_device_write _ _ _ _ hEF⟩
  · simp only [if_neg hfast]
    obtain ⟨n1, f1, hrc, hcons1⟩ :=
      tefs_write_resolve_child_consistent fs f pg hEF hc hpir
    rw [hrc]
    obtain ⟨dv, f2, hac, hef⟩ := tefs_write_after_child_consistent
      { fs with dev := fs.dev.bumpReads n1 } f1 pg data off
      (errorFree_bumpReads _ _ hEF) (by rw [hcons1]; exact hc)
    exact ⟨dv, f2, hac, hef⟩

/-! ### The nested tefs_write on the metadata file -/

theorem tefs_write_metadata_spec (fuel : ℕ) (fs : FS) (p : ℕ) (d : List ℕ) (o : ℕ)
    (hEF : ErrorFree fs.dev) (hlt : p < fs.metadata.eof_page)
    (hcons : fs.metadata.is_file_size_consistent ≠ 0)
    (hpir : (tefs_map_page_to_root_index_address fs p).1 < fs.block_size) :
    ∃ dv m', tefs_write (fuel + 1) fs fs.metadata p d o =
      ({ fs with dev := dv }, m', TEFS_ERR_OK) ∧ ErrorFree dv := by
  rw [tefs_write, tefs_writeF, tefs_write_eof_phase,
    if_neg (by omega : ¬p = fs.metadata.eof_page),
    if_neg (by omega : ¬p > fs.metadata.eof_page)]
  obtain ⟨dv, m', hdp, hef⟩ :=
    tefs_write_data_phase_consistent_ok fs fs.metadata p d o hEF hcons hpir
  exact ⟨dv, m', hdp, hef⟩

theorem tefs_write_metadata_no_wpe (fuel : ℕ) (fs : FS) (p : ℕ) (d : List ℕ)
    (o : ℕ) (hlt : p < fs.metadata.eof_page) :
    (tefs_write fuel fs fs.metadata p d o).2.2 ≠ TEFS_ERR_WRITE_PAST_END := by
  cases fuel with
  | zero =>
      rw [tefs_write]
      norm_num [TEFS_MODEL_OUT_OF_FUEL, TEFS_ERR_WRITE_PAST_END]
  | succ fuel =>
      rw [tefs_write, tefs_writeF, tefs_write_eof_phase,
        if_neg (by omega : ¬p = fs.metadata.eof_page),
        if_neg (by omega : ¬p > fs.metadata.eof_page)]
      obtain ⟨d1, c1, p1, f', st, hdp, _, _, hst, _⟩ :=
        tefs_write_data_phase_shape fs fs.metadata p d o
      show (tefs_write_data_phase fs fs.metadata p d o).2.2 ≠ TEFS_ERR_WRITE_PAST_END
      rw [hdp]
      rcases hst with h | h | h | h <;> subst h <;>
        norm_num [TEFS_ERR_OK, TEFS_ERR_READ, TEFS_ERR_FILE_FULL,
          TEFS_ERR_DEVICE_FULL, TEFS_ERR_WRITE_PAST_END]

/-! ### The root-index-block transition -/

theorem tefs_write_root_transition_no_wpe (recur : FS → ℕ → List ℕ → ℕ → FS × ℕ)
    (fs : FS) (f : file_t)
    (hrec : f.directory_page ≠ 4294967295 → ∀ fs1 a,
      (recur fs1 f.directory_page (toLE fs.address_size a)
        (u16 (f.directory_byte + fs.max_file_name_size + TEFS_DIR_STATUS_SIZE +
          TEFS_DIR_EOF_PAGE_SIZE + TEFS_DIR_EOF_BYTE_SIZE))).2 ≠
        TEFS_ERR_WRITE_PAST_END) :
    ∀ st, (tefs_write_root_transition recur fs f).2.2 = some st →
      st ≠ TEFS_ERR_WRITE_PAST_END := by
  intro st hst
  obtain ⟨d0, c0, p0, opt, st0, hres, hst0, _, _⟩ := tefs_reserve_device_block_shape fs
  rw [tefs_write_root_transition] at hst
  simp only [hres] at hst
  rcases hst0 with h | h | h <;> subst h
  · simp only [if_neg (show ¬(TEFS_ERR_OK ≠ 0) by norm_num [TEFS_ERR_OK])] at hst
    by_cases hdir : f.directory_page = 4294967295
    · simp only [if_pos hdir] at hst
      simp at hst
    · simp only [if_neg hdir] at hst
      split at hst
      · simp at hst
        rw [← hst]
        exact hrec hdir _ _
      · simp at hst
  · simp only [if_pos (show TEFS_ERR_READ ≠ 0 by norm_num [TEFS_ERR_READ])] at hst
    simp at hst
    subst hst
    norm_num [TEFS_ERR_READ, TEFS_ERR_WRITE_PAST_END]
  · simp only [if_pos
      (show TEFS_ERR_DEVICE_FULL ≠ 0 by norm_num [TEFS_ERR_DEVICE_FULL])] at hst
    simp at hst
    subst hst
    norm_num [TEFS_ERR_DEVICE_FULL, TEFS_ERR_WRITE_PAST_END]

theorem tefs_write_root_transition_ok (recur : FS → ℕ → List ℕ → ℕ → FS × ℕ)
    (fs : FS) (f : file_t) (hEF : ErrorFree fs.dev)
    (hpool : fs.is_block_pool_empty = 0)
    (hrec : f.directory_page ≠ 4294967295 → ∀ fs1 a, sameGeometry fs1 fs →
      ErrorFree fs1.dev →
      ∃ dv m', recur fs1 f.directory_page (toLE fs.address_size a)
          (u16 (f.directory_byte + fs.max_file_name_size + TEFS_DIR_STATUS_SIZE +
            TEFS_DIR_EOF_PAGE_SIZE + TEFS_DIR_EOF_BYTE_SIZE)) =
        ({ fs1 with dev := dv, metadata := m' }, TEFS_ERR_OK) ∧ ErrorFree dv) :
    ∃ dv c p m' r, tefs_write_root_transition recur fs f =
      ({ fs with
          dev := dv
          state_section_bit := c
          is_block_pool_empty := p
          metadata := m' },
        { f with root_index_block_address := r }, none) ∧ ErrorFree dv := by
  obtain ⟨d0, c0, p0, opt, st0, hres, _, hefd, hok⟩ := tefs_reserve_device_block_shape fs
  have h0 : st0 = TEFS_ERR_OK := hok hEF hpool
  subst h0
  rw [tefs_write_root_transition]
  simp only [hres, if_neg (show ¬(TEFS_ERR_OK ≠ 0) by norm_num [TEFS_ERR_OK])]
  by_cases hdir : f.directory_page = 4294967295
  · simp only [if_pos hdir]
    exact ⟨device_write_num (device_write_num d0 (opt.getD f.root_index_block_address)
        0 fs.address_size f.child_index_block_address) 0
        (u16 (f.directory_byte + fs.max_file_name_size + TEFS_DIR_STATUS_SIZE +
          TEFS_DIR_EOF_PAGE_SIZE + TEFS_DIR_EOF_BYTE_SIZE))
        fs.address_size (opt.getD f.root_index_block_address),
      c0, p0, fs.metadata, opt.getD f.root_index_block_address, rfl,
      errorFree_device_write _ _ _ _ (errorFree_device_write _ _ _ _ (hefd hEF))⟩
  · simp only [if_neg hdir]
    obtain ⟨dv, m', hr, hefr⟩ := hrec hdir
      { fs with
        dev := device_write_num d0 (opt.getD f.root_index_block_address) 0
          fs.address_size f.child_index_block_address
        state_section_bit := c0, is_block_pool_empty := p0 }
      (opt.getD f.root_index_block_address)
      ⟨rfl, rfl, rfl, rfl, rfl, rfl, rfl, rfl, rfl, rfl⟩
      (errorFree_device_write _ _ _ _ (hefd hEF))
    simp only [hr, if_neg (show ¬(TEFS_ERR_OK ≠ 0) by norm_num [TEFS_ERR_OK])]
    exact ⟨dv, c0, p0, m', opt.getD f.root_index_block_address, rfl, hefr⟩

theorem tefs_map_page_to_root_index_address_congr (a b : FS) (p : ℕ)
    (h : sameGeometry a b) :
    tefs_map_page_to_root_index_address a p =
      tefs_map_page_to_root_index_address b p := by
  obtain ⟨h1, h2, h3, h4, h5, h6, h7, h8, _, _⟩ := h
  rw [tefs_map_page_to_root_index_address, tefs_map_page_to_root_index_address,
    h5, h6, h7, h8, h2]

/-! ### Branch equations for the eof phase and the fast data path -/

theorem tefs_write_data_phase_fast (fs : FS) (f : file_t) (pg : ℕ)
    (data : List ℕ) (off : ℕ)
    (hfast : pg = f.current_page_number ∨
      DIV_BY_POW_2_EXP pg fs.block_size_exponent = f.data_block_number) :
    tefs_write_data_phase fs f pg data off =
      ({ fs with dev := (device_write fs.dev
          (f.data_block_address + MOD_BY_POW_2 pg fs.block_size) off data) },
        { f with current_page_number := pg }, TEFS_ERR_OK) := by
  rw [tefs_write_data_phase, if_pos hfast]

theorem tefs_write_eof_phase_past1 (recur : FS → ℕ → List ℕ → ℕ → FS × ℕ)
    (fs : FS) (f : file_t) (pg len off : ℕ)
    (hpage : pg = f.eof_page) (hoff : off > f.eof_byte) :
    tefs_write_eof_phase recur fs f pg len off =
      (fs, f, some TEFS_ERR_WRITE_PAST_END) := by
  rw [tefs_write_eof_phase, if_pos hpage, if_pos hoff]

theorem tefs_write_eof_phase_past2 (recur : FS → ℕ → List ℕ → ℕ → FS × ℕ)
    (fs : FS) (f : file_t) (pg len off : ℕ)
    (hpage : ¬pg = f.eof_page) (hgt : pg > f.eof_page) :
    tefs_write_eof_phase recur fs f pg len off =
      (fs, f, some TEFS_ERR_WRITE_PAST_END) := by
  rw [tefs_write_eof_phase, if_neg hpage, if_pos hgt]

theorem tefs_write_eof_phase_before (recur : FS → ℕ → List ℕ → ℕ → FS × ℕ)
    (fs : FS) (f : file_t) (pg len off : ℕ)
    (hpage : ¬pg = f.eof_page) (hgt : ¬pg > f.eof_page) :
    tefs_write_eof_phase recur fs f pg len off = (fs, f, none) := by
  rw [tefs_write_eof_phase, if_neg hpage, if_neg hgt]

theorem tefs_write_eof_phase_nogrow (recur : FS → ℕ → List ℕ → ℕ → FS × ℕ)
    (fs : FS) (f : file_t) (pg len off : ℕ)
    (hpage : pg = f.eof_page) (hoff : ¬off > f.eof_byte)
    (hgt : ¬off + len > f.eof_byte) (hne : ¬f.eof_byte = fs.page_size) :
    tefs_write_eof_phase recur fs f pg len off =
      (fs, { f with is_file_size_consistent := 0 }, none) := by
  rw [tefs_write_eof_phase, if_pos hpage, if_neg hoff]
  simp only [if_neg hgt]
  rw [if_neg hne]

theorem tefs_write_eof_phase_grow_nowrap (recur : FS → ℕ → List ℕ → ℕ → FS × ℕ)
    (fs : FS) (f : file_t) (pg len off : ℕ)
    (hpage : pg = f.eof_page) (hoff : ¬off > f.eof_byte)
    (hgt : off + len > f.eof_byte) (hnw : ¬u16 (off + len) = fs.page_size) :
    tefs_write_eof_phase recur fs f pg len off =
      (fs, { f with eof_byte := u16 (off + len), is_file_size_consistent := 0 },
        none) := by
  rw [tefs_write_eof_phase, if_pos hpage, if_neg hoff]
  simp only [if_pos hgt]
  rw [if_neg hnw]

theorem tefs_write_eof_phase_wrap_notrans (recur : FS → ℕ → List ℕ → ℕ → FS × ℕ)
    (fs : FS) (f : file_t) (pg len off : ℕ)
    (hpage : pg = f.eof_page) (hoff : ¬off > f.eof_byte)
    (hgt : off + len > f.eof_byte) (hw : u16 (off + len) = fs.page_size)
    (hnt : ¬u32 (f.eof_page + 1) = MULT_BY_POW_2_EXP fs.block_size
      (fs.page_size_exponent - fs.address_size_exponent + fs.block_size_exponent)) :
    tefs_write_eof_phase recur fs f pg len off =
      (fs, { f with
          eof_page := u32 (f.eof_page + 1)
          eof_byte := 0
          is_file_size_consistent := 0 }, none) := by
  rw [tefs_write_eof_phase, if_pos hpage, if_neg hoff]
  simp only [if_pos hgt]
  rw [if_pos hw]
  rw [if_neg hnt]

theorem tefs_write_eof_phase_wrap_trans (recur : FS → ℕ → List ℕ → ℕ → FS × ℕ)
    (fs : FS) (f : file_t) (pg len off : ℕ)
    (hpage : pg = f.eof_page) (hoff : ¬off > f.eof_byte)
    (hgt : off + len > f.eof_byte) (hw : u16 (off + len) = fs.page_size)
    (ht : u32 (f.eof_page + 1) = MULT_BY_POW_2_EXP fs.block_size
      (fs.page_size_exponent - fs.address_size_exponent + fs.block_size_exponent)) :
    tefs_write_eof_phase recur fs f pg len off =
      tefs_write_root_transition recur fs
        { f with
          eof_page := u32 (f.eof_page + 1)
          eof_byte := 0
          is_file_size_consistent := 0 } := by
  rw [tefs_write_eof_phase, if_pos hpage, if_neg hoff]
  simp only [if_pos hgt]
  rw [if_pos hw]
  rw [if_pos ht]

/-! ## Claim C3: the append rule of tefs_write -/

/-- **C3**: on an error-free device with a non-empty block pool, for an open
    file whose target block is cached (fast path), whose eof_byte is within
    its page, and whose directory entry is reachable (an internal file, or a
    directory page inside the size-consistent metadata file with room in its
    root index), tefs_write returns WritePastEnd exactly when the target is
    strictly past EOF (file_page > eof_page, or file_page = eof_page with
    byte_offset > eof_byte); a write at the EOF page with byte_offset =
    eof_byte and positive length succeeds, advancing eof_byte by the length,
    and when eof_byte reaches page_size, eof_page is incremented and
    eof_byte reset to 0. -/
theorem c3_write_append_rule (fuel : ℕ) (fs : FS) (f : file_t)
    (page off : ℕ) (data : List ℕ)
    (hEF : ErrorFree fs.dev) (hpool : fs.is_block_pool_empty = 0)
    (hlen : off + data.length ≤ fs.page_size) (hps16 : fs.page_size < 65536)
    (heofb : f.eof_byte < fs.page_size) (heof32 : f.eof_page + 1 < 4294967296)
    (hdir : f.directory_page = 4294967295 ∨
      (f.directory_page < fs.metadata.eof_page ∧
        fs.metadata.is_file_size_consistent ≠ 0 ∧
        (tefs_map_page_to_root_index_address fs f.directory_page).1 < fs.block_size))
    (hfast : page = f.current_page_number ∨
      DIV_BY_POW_2_EXP page fs.block_size_exponent = f.data_block_number) :
    ((tefs_write (fuel + 2) fs f page data off).2.2 = TEFS_ERR_WRITE_PAST_END ↔
      (page > f.eof_page ∨ (page = f.eof_page ∧ off > f.eof_byte))) ∧
    (page = f.eof_page → off = f.eof_byte → 0 < data.length →
      (tefs_write (fuel + 2) fs f page data off).2.2 = TEFS_ERR_OK ∧
      (if off + data.length = fs.page_size
       then (tefs_write (fuel + 2) fs f page data off).2.1.eof_page = f.eof_page + 1 ∧
         (tefs_write (fuel + 2) fs f page data off).2.1.eof_byte = 0
       else (tefs_write (fuel + 2) fs f page data off).2.1.eof_page = f.eof_page ∧
         (tefs_write (fuel + 2) fs f page data off).2.1.eof_byte =
           off + data.length)) := by
  have hu : u16 (off + data.length) = off + data.length := by
    rw [u16]; exact Nat.mod_eq_of_lt (lt_of_le_of_lt hlen hps16)
  have hu32 : u32 (f.eof_page + 1) = f.eof_page + 1 := by
    rw [u32]; exact Nat.mod_eq_of_lt heof32
  by_cases hpage : page = f.eof_page
  · by_cases hoff : off > f.eof_byte
    · -- strictly past: byte_offset beyond eof_byte on the eof page
      have hW : tefs_write (fuel + 2) fs f page data off =
          (fs, f, TEFS_ERR_WRITE_PAST_END) := by
        rw [tefs_write, tefs_writeF,
          tefs_write_eof_phase_past1 _ fs f page data.length off hpage hoff]
      rw [hW]
      exact ⟨⟨fun _ => Or.inr ⟨hpage, hoff⟩, fun _ => rfl⟩,
        fun _ hoe _ => absurd hoff (by omega)⟩
    · by_cases hgt : off + data.length > f.eof_byte
      · by_cases hwrap : off + data.length = fs.page_size
        · have hw16 : u16 (off + data.length) = fs.page_size := hu.trans hwrap
          by_cases ht : u32 (f.eof_page + 1) = MULT_BY_POW_2_EXP fs.block_size
              (fs.page_size_exponent - fs.address_size_exponent +
                fs.block_size_exponent)
          · -- wrap onto the root-index transition
            obtain ⟨dv, c, p, m', r, hT, _⟩ :=
              tefs_write_root_transition_ok
                (fun fs p d o =>
                  match tefs_write (fuel + 1) fs fs.metadata p d o with
                  | (fs', m', st) => ({ fs' with metadata := m' }, st))
                fs
                { f with
                  eof_page := u32 (f.eof_page + 1)
                  eof_byte := 0
                  is_file_size_consistent := 0 }
                hEF hpool
                (by
                  intro hdirne fs1 a hgeo hef1
                  have hmeta : fs1.metadata = fs.metadata :=
                    hgeo.2.2.2.2.2.2.2.2.2
                  have hbs : fs1.block_size = fs.block_size := hgeo.2.2.1
                  obtain ⟨hlt, hcons, hpir⟩ := hdir.resolve_left hdirne
                  obtain ⟨dvx, mx, hw, hefw⟩ := tefs_write_metadata_spec fuel fs1
                    f.directory_page (toLE fs.address_size a)
                    (u16 (f.directory_byte + fs.max_file_name_size +
                      TEFS_DIR_STATUS_SIZE + TEFS_DIR_EOF_PAGE_SIZE +
                      TEFS_DIR_EOF_BYTE_SIZE))
                    hef1 (by rw [hmeta]; exact hlt) (by rw [hmeta]; exact hcons)
                    (by rw [tefs_map_page_to_root_index_address_congr fs1 fs
                          f.directory_page hgeo, hbs]
                        exact hpir)
                  refine ⟨dvx, mx, ?_, hefw⟩
                  show (match tefs_write (fuel + 1) fs1 fs1.metadata
                      f.directory_page (toLE fs.address_size a)
                      (u16 (f.directory_byte + fs.max_file_name_size +
                        TEFS_DIR_STATUS_SIZE + TEFS_DIR_EOF_PAGE_SIZE +
                        TEFS_DIR_EOF_BYTE_SIZE)) with
                    | (fs', m', st) => ({ fs' with metadata := m' }, st)) =
                    ({ fs1 with dev := dvx, metadata := mx }, TEFS_ERR_OK)
                  rw [hw])
            have hW : tefs_write (fuel + 2) fs f page data off =
                ({ fs with
                    dev := (device_write dv
                      (f.data_block_address + MOD_BY_POW_2 page fs.block_size)
                      off data)
                    state_section_bit := c
                    is_block_pool_empty := p
                    metadata := m' },
                  { f with
                    eof_page := u32 (f.eof_page + 1)
                    eof_byte := 0
                    is_file_size_consistent := 0
                    root_index_block_address := r
                    current_page_number := page }, TEFS_ERR_OK) := by
              rw [tefs_write, tefs_writeF,
                tefs_write_eof_phase_wrap_trans _ fs f page data.length off
                  hpage hoff hgt hw16 ht, hT]
              exact tefs_write_data_phase_fast
                { fs with
                  dev := dv
                  state_section_bit := c
                  is_block_pool_empty := p
                  metadata := m' }
                { f with
                  eof_page := u32 (f.eof_page + 1)
                  eof_byte := 0
                  is_file_size_consistent := 0
                  root_index_block_address := r }
                page data off hfast
            rw [hW]
            refine ⟨⟨fun h => absurd h (by norm_num [TEFS_ERR_OK,
                TEFS_ERR_WRITE_PAST_END]), fun h => ?_⟩, fun _ _ _ => ?_⟩
            · rcases h with h | ⟨_, h⟩
              · omega
              · exact absurd h hoff
            · rw [if_pos hwrap]
              exact ⟨rfl, hu32, rfl⟩
          · -- wrap without the transition
            have hW : tefs_write (fuel + 2) fs f page data off =
                ({ fs with dev := (device_write fs.dev
                    (f.data_block_address + MOD_BY_POW_2 page fs.block_size)
                    off data) },
                  { f with
                    eof_page := u32 (f.eof_page + 1)
                    eof_byte := 0
                    is_file_size_consistent := 0
                    current_page_number := page }, TEFS_ERR_OK) := by
              rw [tefs_write, tefs_writeF,
                tefs_write_eof_phase_wrap_notrans _ fs f page data.length off
                  hpage hoff hgt hw16 ht]
              exact tefs_write_data_phase_fast fs
                { f with
                  eof_page := u32 (f.eof_page + 1)
                  eof_byte := 0
                  is_file_size_consistent := 0 }
                page data off hfast
            rw [hW]
            refine ⟨⟨fun h => absurd h (by norm_num [TEFS_ERR_OK,
                TEFS_ERR_WRITE_PAST_END]), fun h => ?_⟩, fun _ _ _ => ?_⟩
            · rcases h with h | ⟨_, h⟩
              · omega
              · exact absurd h hoff
            · rw [if_pos hwrap]
              exact ⟨rfl, hu32, rfl⟩
        · -- the write grows the page without filling it
          have hnw : ¬u16 (off + data.length) = fs.page_size := by
            rw [hu]; exact hwrap
          have hW : tefs_write (fuel + 2) fs f page data off =
              ({ fs with dev := (device_write fs.dev
                  (f.data_block_address + MOD_BY_POW_2 page fs.block_size)
                  off data) },
                { f with
                  eof_byte := u16 (off + data.length)
                  is_file_size_consistent := 0
                  current_page_number := page }, TEFS_ERR_OK) := by
            rw [tefs_write, tefs_writeF,
              tefs_write_eof_phase_grow_nowrap _ fs f page data.length off
                hpage hoff hgt hnw]
            exact tefs_write_data_phase_fast fs
              { f with
                eof_byte := u16 (off + data.length)
                is_file_size_consistent := 0 }
              page data off hfast
          rw [hW]
          refine ⟨⟨fun h => absurd h (by norm_num [TEFS_ERR_OK,
              TEFS_ERR_WRITE_PAST_END]), fun h => ?_⟩, fun _ _ _ => ?_⟩
          · rcases h with h | ⟨_, h⟩
            · omega
            · exact absurd h hoff
          · rw [if_neg hwrap]
            exact ⟨rfl, rfl, hu⟩
      · -- an overwrite below eof_byte
        have hne : ¬f.eof_byte = fs.page_size := by omega
        have hW : tefs_write (fuel + 2) fs f page data off =
            ({ fs with dev := (device_write fs.dev
                (f.data_block_address + MOD_BY_POW_2 page fs.block_size)
                off data) },
              { f with
                is_file_size_consistent := 0
                current_page_number := page }, TEFS_ERR_OK) := by
          rw [tefs_write, tefs_writeF,
            tefs_write_eof_phase_nogrow _ fs f page data.length off
              hpage hoff hgt hne]
          exact tefs_write_data_phase_fast fs
            { f with is_file_size_consistent := 0 } page data off hfast
        rw [hW]
        refine ⟨⟨fun h => absurd h (by norm_num [TEFS_ERR_OK,
            TEFS_ERR_WRITE_PAST_END]), fun h => ?_⟩, fun _ hoe hl => ?_⟩
        · rcases h with h | ⟨_, h⟩
          · omega
          · exact absurd h hoff
        · exact absurd (by omega : off + data.length > f.eof_byte) hgt
  · by_cases hgtp : page > f.eof_page
    · -- strictly past: beyond the eof page
      have hW : tefs_write (fuel + 2) fs f page data off =
          (fs, f, TEFS_ERR_WRITE_PAST_END) := by
        rw [tefs_write, tefs_writeF,
          tefs_write_eof_phase_past2 _ fs f page data.length off hpage hgtp]
      rw [hW]
      exact ⟨⟨fun _ => Or.inl hgtp, fun _ => rfl⟩, fun hp _ _ => absurd hp hpage⟩
    · -- before the eof page
      have hW : tefs_write (fuel + 2) fs f page data off =
          ({ fs with dev := (device_write fs.dev
              (f.data_block_address + MOD_BY_POW_2 page fs.block_size)
              off data) },
            { f with current_page_number := page }, TEFS_ERR_OK) := by
        rw [tefs_write, tefs_writeF,
          tefs_write_eof_phase_before _ fs f page data.length off hpage hgtp]
        exact tefs_write_data_phase_fast fs f page data off hfast
      rw [hW]
      refine ⟨⟨fun h => absurd h (by norm_num [TEFS_ERR_OK,
          TEFS_ERR_WRITE_PAST_END]), fun h => ?_⟩, fun hp _ _ => absurd hp hpage⟩
      rcases h with h | ⟨h, _⟩
      · exact absurd h hgtp
      · exact absurd h hpage

/-- Witness for c3_write_append_rule: writing two bytes at (3, 2) on the
    concrete state c3_fs / c3_file, where eof = (3, 2) and page_size = 4,
    succeeds, wraps eof_byte past page_size and increments eof_page. -/
theorem c3_write_append_rule_witness :
    ErrorFree c3_fs.dev ∧ c3_fs.is_block_pool_empty = 0 ∧
    2 + [5, 6].length ≤ c3_fs.page_size ∧ c3_fs.page_size < 65536 ∧
    c3_file.eof_byte < c3_fs.page_size ∧ c3_file.eof_page + 1 < 4294967296 ∧
    c3_file.directory_page = 4294967295 ∧
    (3 = c3_file.current_page_number ∨
      DIV_BY_POW_2_EXP 3 c3_fs.block_size_exponent = c3_file.data_block_number) ∧
    (((tefs_write (0 + 2) c3_fs c3_file 3 [5, 6] 2).2.2 =
        TEFS_ERR_WRITE_PAST_END ↔
      (3 > c3_file.eof_page ∨ (3 = c3_file.eof_page ∧ 2 > c3_file.eof_byte))) ∧
    (3 = c3_file.eof_page → 2 = c3_file.eof_byte → 0 < [5, 6].length →
      (tefs_write (0 + 2) c3_fs c3_file 3 [5, 6] 2).2.2 = TEFS_ERR_OK ∧
      (if 2 + [5, 6].length = c3_fs.page_size
       then (tefs_write (0 + 2) c3_fs c3_file 3 [5, 6] 2).2.1.eof_page =
           c3_file.eof_page + 1 ∧
         (tefs_write (0 + 2) c3_fs c3_file 3 [5, 6] 2).2.1.eof_byte = 0
       else (tefs_write (0 + 2) c3_fs c3_file 3 [5, 6] 2).2.1.eof_page =
           c3_file.eof_page ∧
         (tefs_write (0 + 2) c3_fs c3_file 3 [5, 6] 2).2.1.eof_byte =
           2 + [5, 6].length))) :=
  ⟨fun _ => rfl, rfl, by decide, by decide, by decide, by decide, rfl,
    Or.inl rfl,
    c3_write_append_rule 0 c3_fs c3_file 3 2 [5, 6] (fun _ => rfl) rfl
      (by decide) (by decide) (by decide) (by decide) (Or.inl rfl)
      (Or.inl rfl)⟩

/-! ## Claim C2: the root-index-block transition -/

/-- **C2** counterexample: the claim places the transition at
    eof_page = B * ppa (block_size * page_size / address_size = 4 in the
    c3_fs geometry).  c2_file has eof_page = 4 = B * ppa exactly; the next
    write (one full page at the eof) returns OK, moves eof_page to 5, but
    allocates nothing: the file's root_index_block_address is unchanged,
    the allocator cursor is unchanged, and the device log holds exactly
    one write — the data page — so no root index block was written and no
    metadata root pointer was updated.  The transition actually fires at
    eof_page = block_size << (page_size_exponent - address_size_exponent +
    block_size_exponent) = B^2 * ppa = 8 (tefs.c line 898). -/
theorem c2_transition_counterexample :
    c2_file.eof_page = c3_fs.block_size * (c3_fs.page_size / c3_fs.address_size) ∧
    (tefs_write 2 c3_fs c2_file 4 [1, 2, 3, 4] 0).2.2 = TEFS_ERR_OK ∧
    (tefs_write 2 c3_fs c2_file 4 [1, 2, 3, 4] 0).2.1.eof_page = 5 ∧
    (tefs_write 2 c3_fs c2_file 4 [1, 2, 3, 4] 0).2.1.root_index_block_address =
      c2_file.root_index_block_address ∧
    (tefs_write 2 c3_fs c2_file 4 [1, 2, 3, 4] 0).1.state_section_bit =
      c3_fs.state_section_bit ∧
    (tefs_write 2 c3_fs c2_file 4 [1, 2, 3, 4] 0).1.dev.log =
      [⟨60, 0, [1, 2, 3, 4]⟩] :=
  ⟨rfl, rfl, rfl, rfl, rfl, rfl⟩

/-- **C2** (amended): the transition happens when the incremented eof_page
    reaches block_size << (page_size_exponent - address_size_exponent +
    block_size_exponent) — that is B^2 * ppa, not B * ppa.  For an internal
    file (directory_page 0xFFFFFFFF) on an error-free device whose
    state-section bit at the cursor is set, the page-filling write at the
    eof succeeds; the file's root_index_block_address becomes the newly
    reserved block cursor * block_size + (1 + state_section_size); and the
    device write log shows, in order: the state-bitmap byte clearing the
    reserved bit, the existing child index block address written as the
    root's first entry, the directory record's root pointer update, and
    only then the data page write — so the root pointer is published
    before the data write is emitted, and the reserve precedes every
    pointer publication. -/
theorem c2_transition_amended (fuel : ℕ) (fs : FS) (f : file_t)
    (page off : ℕ) (data : List ℕ)
    (hEF : ErrorFree fs.dev) (hpool : fs.is_block_pool_empty = 0)
    (hps16 : fs.page_size < 65536) (heof32 : f.eof_page + 1 < 4294967296)
    (hpage : page = f.eof_page) (hoff : off = f.eof_byte)
    (hlen0 : 0 < data.length) (hwrap : off + data.length = fs.page_size)
    (ht : u32 (f.eof_page + 1) = MULT_BY_POW_2_EXP fs.block_size
      (fs.page_size_exponent - fs.address_size_exponent + fs.block_size_exponent))
    (hdirF : f.directory_page = 4294967295)
    (hfast : page = f.current_page_number ∨
      DIV_BY_POW_2_EXP page fs.block_size_exponent = f.data_block_number)
    (hbnz : fromLE (fs.dev.readBytes
        (DIV_BY_POW_2_EXP (DIV_BY_POW_2_EXP fs.state_section_bit 3)
            fs.page_size_exponent + 1)
        (u16 (MOD_BY_POW_2 (DIV_BY_POW_2_EXP fs.state_section_bit 3)
            fs.page_size)) 1) &&&
      POW_2_TO (7 - MOD_BY_POW_2 fs.state_section_bit 8) ≠ 0) :
    (tefs_write (fuel + 2) fs f page data off).2.2 = TEFS_ERR_OK ∧
    (tefs_write (fuel + 2) fs f page data off).2.1.root_index_block_address =
      MULT_BY_POW_2_EXP fs.state_section_bit fs.block_size_exponent +
        (1 + fs.state_section_size) ∧
    (tefs_write (fuel + 2) fs f page data off).2.1.eof_page = f.eof_page + 1 ∧
    (tefs_write (fuel + 2) fs f page data off).2.1.eof_byte = 0 ∧
    (tefs_write (fuel + 2) fs f page data off).1.dev.log =
      ⟨f.data_block_address + MOD_BY_POW_2 page fs.block_size, off, data⟩ ::
      ⟨0, u16 (f.directory_byte + fs.max_file_name_size + TEFS_DIR_STATUS_SIZE +
          TEFS_DIR_EOF_PAGE_SIZE + TEFS_DIR_EOF_BYTE_SIZE),
        toLE fs.address_size
          (MULT_BY_POW_2_EXP fs.state_section_bit fs.block_size_exponent +
            (1 + fs.state_section_size))⟩ ::
      ⟨MULT_BY_POW_2_EXP fs.state_section_bit fs.block_size_exponent +
          (1 + fs.state_section_size), 0,
        toLE fs.address_size f.child_index_block_address⟩ ::
      ⟨DIV_BY_POW_2_EXP (DIV_BY_POW_2_EXP fs.state_section_bit 3)
          fs.page_size_exponent + 1,
        u16 (MOD_BY_POW_2 (DIV_BY_POW_2_EXP fs.state_section_bit 3) fs.page_size),
        [fromLE (fs.dev.readBytes
            (DIV_BY_POW_2_EXP (DIV_BY_POW_2_EXP fs.state_section_bit 3)
                fs.page_size_exponent + 1)
            (u16 (MOD_BY_POW_2 (DIV_BY_POW_2_EXP fs.state_section_bit 3)
                fs.page_size)) 1) &&&
          (255 - POW_2_TO (7 - MOD_BY_POW_2 fs.state_section_bit 8))]⟩ ::
      fs.dev.log := by
  have hu : u16 (off + data.length) = off + data.length := by
    rw [u16, hwrap]
    exact Nat.mod_eq_of_lt hps16
  have hw16 : u16 (off + data.length) = fs.page_size := hu.trans hwrap
  have hu32 : u32 (f.eof_page + 1) = f.eof_page + 1 := by
    rw [u32]; exact Nat.mod_eq_of_lt heof32
  have hoff' : ¬off > f.eof_byte := by omega
  have hgt : off + data.length > f.eof_byte := by omega
  obtain ⟨n, c, p, hres⟩ := tefs_reserve_device_block_bitset fs hEF hpool hbnz
  have hW : tefs_write (fuel + 2) fs f page data off =
      ({ fs with
          dev := (device_write
            (device_write_num
              (device_write_num
                ((device_write (fs.dev.bumpReads 1)
                  (DIV_BY_POW_2_EXP (DIV_BY_POW_2_EXP fs.state_section_bit 3)
                      fs.page_size_exponent + 1)
                  (u16 (MOD_BY_POW_2 (DIV_BY_POW_2_EXP fs.state_section_bit 3)
                      fs.page_size))
                  [fromLE (fs.dev.readBytes
                      (DIV_BY_POW_2_EXP (DIV_BY_POW_2_EXP fs.state_section_bit 3)
                          fs.page_size_exponent + 1)
                      (u16 (MOD_BY_POW_2
                          (DIV_BY_POW_2_EXP fs.state_section_bit 3)
                          fs.page_size)) 1) &&&
                    (255 - POW_2_TO
                      (7 - MOD_BY_POW_2 fs.state_section_bit 8))]).bumpReads n)
                (MULT_BY_POW_2_EXP fs.state_section_bit fs.block_size_exponent +
                  (1 + fs.state_section_size))
                0 fs.address_size f.child_index_block_address)
              0
              (u16 (f.directory_byte + fs.max_file_name_size +
                TEFS_DIR_STATUS_SIZE + TEFS_DIR_EOF_PAGE_SIZE +
                TEFS_DIR_EOF_BYTE_SIZE))
              fs.address_size
              (MULT_BY_POW_2_EXP fs.state_section_bit fs.block_size_exponent +
                (1 + fs.state_section_size)))
            (f.data_block_address + MOD_BY_POW_2 page fs.block_size) off data)
          state_section_bit := c
          is_block_pool_empty := p },
        { f with
          eof_page := u32 (f.eof_page + 1)
          eof_byte := 0
          is_file_size_consistent := 0
          root_index_block_address :=
            MULT_BY_POW_2_EXP fs.state_section_bit fs.block_size_exponent +
              (1 + fs.state_section_size)
          current_page_number := page }, TEFS_ERR_OK) := by
    rw [tefs_write, tefs_writeF,
      tefs_write_eof_phase_wrap_trans _ fs f page data.length off hpage hoff'
        hgt hw16 ht,
      tefs_write_root_transition]
    simp only [hres, Option.getD_some,
      if_neg (show ¬(TEFS_ERR_OK ≠ 0) by norm_num [TEFS_ERR_OK]), if_pos hdirF]
    exact tefs_write_data_phase_fast
      { fs with
        dev := (device_write_num
          (device_write_num
            ((device_write (fs.dev.bumpReads 1)
              (DIV_BY_POW_2_EXP (DIV_BY_POW_2_EXP fs.state_section_bit 3)
                  fs.page_size_exponent + 1)
              (u16 (MOD_BY_POW_2 (DIV_BY_POW_2_EXP fs.state_section_bit 3)
                  fs.page_size))
              [fromLE (fs.dev.readBytes
                  (DIV_BY_POW_2_EXP (DIV_BY_POW_2_EXP fs.state_section_bit 3)
                      fs.page_size_exponent + 1)
                  (u16 (MOD_BY_POW_2 (DIV_BY_POW_2_EXP fs.state_section_bit 3)
                      fs.page_size)) 1) &&&
                (255 - POW_2_TO
                  (7 - MOD_BY_POW_2 fs.state_section_bit 8))]).bumpReads n)
            (MULT_BY_POW_2_EXP fs.state_section_bit fs.block_size_exponent +
              (1 + fs.state_section_size))
            0 fs.address_size f.child_index_block_address)
          0
          (u16 (f.directory_byte + fs.max_file_name_size + TEFS_DIR_STATUS_SIZE +
            TEFS_DIR_EOF_PAGE_SIZE + TEFS_DIR_EOF_BYTE_SIZE))
          fs.address_size
          (MULT_BY_POW_2_EXP fs.state_section_bit fs.block_size_exponent +
            (1 + fs.state_section_size)))
        state_section_bit := c
        is_block_pool_empty := p }
      { f with
        eof_page := u32 (f.eof_page + 1)
        eof_byte := 0
        is_file_size_consistent := 0
        root_index_block_address :=
          MULT_BY_POW_2_EXP fs.state_section_bit fs.block_size_exponent +
            (1 + fs.state_section_size) }
      page data off hfast
  rw [hW]
  exact ⟨rfl, rfl, hu32, rfl, rfl⟩

/-- Witness for c2_transition_amended at the concrete state c2w_fs /
    c2w_file: eof_page 7, a page-filling write wraps to 8 = the code's
    threshold, the reserved root block is page 2, and the log shows the
    state-byte clear, the child pointer, the directory root-pointer update,
    then the data write. -/
theorem c2_transition_amended_witness :
    ErrorFree c2w_fs.dev ∧ c2w_fs.is_block_pool_empty = 0 ∧
    u32 (c2w_file.eof_page + 1) = MULT_BY_POW_2_EXP c2w_fs.block_size
      (c2w_fs.page_size_exponent - c2w_fs.address_size_exponent +
        c2w_fs.block_size_exponent) ∧
    ((tefs_write (0 + 2) c2w_fs c2w_file 7 [1, 2, 3, 4] 0).2.2 = TEFS_ERR_OK ∧
      (tefs_write (0 + 2) c2w_fs c2w_file 7
          [1, 2, 3, 4] 0).2.1.root_index_block_address = 2 ∧
      (tefs_write (0 + 2) c2w_fs c2w_file 7 [1, 2, 3, 4] 0).2.1.eof_page = 8 ∧
      (tefs_write (0 + 2) c2w_fs c2w_file 7 [1, 2, 3, 4] 0).2.1.eof_byte = 0 ∧
      (tefs_write (0 + 2) c2w_fs c2w_file 7 [1, 2, 3, 4] 0).1.dev.log =
        [⟨71, 0, [1, 2, 3, 4]⟩, ⟨0, 12, [2, 0]⟩, ⟨2, 0, [50, 0]⟩,
          ⟨1, 0, [0]⟩]) :=
  ⟨fun _ => rfl, rfl, by decide,
    c2_transition_amended 0 c2w_fs c2w_file 7 0 [1, 2, 3, 4] (fun _ => rfl) rfl
      (by decide) (by decide) rfl rfl (by decide) (by decide) (by decide) rfl
      (Or.inl rfl) (by decide)⟩

/-! ## Claim C4: directory lookup and the status-byte test -/

/-- **C4** (refuted; code bug at tefs.c line 1430).  The claim says a
    metadata record whose status byte was never flipped to in_use (status
    empty or deleted) is never returned by a lookup.  The guard in the
    source is `status != TEFS_EMPTY || status != TEFS_DELETED`, a
    tautology (every status differs from at least one of 0 and 1), so the
    status byte never filters anything.  In the concrete state c4_fs the
    single directory record has status byte TEFS_EMPTY, yet the lookup for
    its name "a" (with file_operation 0 = find) returns TEFS_ERR_OK and
    that record's directory position (0, 0). -/
theorem c4_lookup_finds_never_in_use_record :
    c4_fs.dev.mem 90 0 = TEFS_EMPTY ∧ TEFS_EMPTY ≠ TEFS_IN_USE ∧
    (tefs_find_file_directory_entry 2 2 c4_fs [97] 0).2.2.2 = TEFS_ERR_OK ∧
    (tefs_find_file_directory_entry 2 2 c4_fs [97] 0).2.1 = 0 ∧
    (tefs_find_file_directory_entry 2 2 c4_fs [97] 0).2.2.1 = 0 :=
  ⟨rfl, by decide, rfl, rfl, rfl⟩

/-! ## Claim C10: tefs_exists is not boolean -/

/-- **C10** (confirmed).  On the error-free state c10ok_fs the file exists
    and tefs_exists returns 1.  On c10_fs the directory scan succeeds
    (reads 0-3) but the status re-read (read ordinal 4) fails, and
    tefs_exists returns the underlying error code TEFS_ERR_READ — whose
    value is 1, colliding with the "exists" answer.  On c10b_fs the very
    first hash-entry read of the scan fails, and tefs_exists returns 0 as
    if the file did not exist, although the in_use record is present on
    the device. -/
theorem c10_exists_returns_error_codes :
    (tefs_exists 2 2 c10ok_fs [97]).2 = 1 ∧
    (tefs_exists 2 2 c10_fs [97]).2 = TEFS_ERR_READ ∧
    TEFS_ERR_READ = 1 ∧
    (tefs_exists 2 2 c10b_fs [97]).2 = 0 ∧
    c10b_fs.dev.mem 90 0 = TEFS_IN_USE :=
  ⟨rfl, rfl, rfl, rfl, rfl⟩

/-! ## Claim C8: formatting and mounting the reference geometry -/

set_option maxRecDepth 100000 in
/-- **C8** (confirmed).  After tefs_format_device(62500, 512, 8, 4, 32, 12,
    erase_first = false) on an error-free device: the state section spans
    2 pages; information-page byte 0 is 0xFC; the first state-section page
    (device page 1) has byte 0 = 0x0F, its top four bits cleared for the
    four blocks holding the two internal files; and tefs_load_card_data
    returns OK with both internal files at eof_page = eof_byte = 0 (and
    the allocator cursor on bit 4, the first free block). -/
theorem c8_format_then_mount :
    c8_formatted.2 = TEFS_ERR_OK ∧
    c8_formatted.1.state_section_size = 2 ∧
    c8_formatted.1.dev.mem 0 0 = 0xFC ∧
    c8_formatted.1.dev.mem 1 0 = 0x0F ∧
    c8_mounted.2 = TEFS_ERR_OK ∧
    c8_mounted.1.hash_entries.eof_page = 0 ∧
    c8_mounted.1.hash_entries.eof_byte = 0 ∧
    c8_mounted.1.metadata.eof_page = 0 ∧
    c8_mounted.1.metadata.eof_byte = 0 ∧
    c8_mounted.1.state_section_bit = 4 :=
  ⟨rfl, rfl, rfl, rfl, rfl, rfl, rfl, rfl, rfl, rfl⟩

/-! ## Claim C5: reserve before publish -/

/-- **C5** counterexample: on c5_fs / c5_file (state bitmap all zero at the
    cursor, pool flag still 0), tefs_write 9 [7] 0 returns OK although
    both reserve calls of the slow path hit the bit-already-0 path
    (tefs.c 1520-1523) and assign nothing: the write log shows that the
    stale zero address was published as the child pointer into the root
    index (page 101) and as the data pointer into page 0, and the user
    byte 7 was then stored on page 0 — the information page — which was
    never reserved; no state-section write appears in the log and no
    state bit changed. -/
theorem c5_publish_without_reserve_counterexample :
    (tefs_write 2 c5_fs c5_file 9 [7] 0).2.2 = TEFS_ERR_OK ∧
    (tefs_write 2 c5_fs c5_file 9 [7] 0).1.dev.log =
      [⟨0, 0, [7]⟩, ⟨0, 0, [0, 0]⟩, ⟨101, 0, [0, 0]⟩] ∧
    (∀ j < 32, state_bit_b (tefs_write 2 c5_fs c5_file 9 [7] 0).1.dev
        c5_fs.page_size_exponent j =
      state_bit_b c5_fs.dev c5_fs.page_size_exponent j) ∧
    (tefs_write 2 c5_fs c5_file 9 [7] 0).1.dev.mem 0 0 = 7 :=
  ⟨rfl, rfl, by decide, rfl⟩

/-- **C5** (amended): in the tefs_write allocation path (tefs.c 983-1004),
    when the state bit at the cursor is set, reserve assigns the fresh
    block address and the publication into the root index carries exactly
    that address; the device log shows the state-bitmap write (marking the
    block used) strictly before the pointer write.  When the cursor bit is
    already 0, reserve returns OK without assigning and the stale zero
    address is published instead (see the counterexample), so the claim's
    invariant holds only on the assigning path. -/
theorem c5_reserve_precedes_publish (fs : FS) (f : file_t) (pg : ℕ)
    (hEF : ErrorFree fs.dev) (hpool : fs.is_block_pool_empty = 0)
    (hcons : f.is_file_size_consistent = 0)
    (hmm : DIV_BY_POW_2_EXP f.data_block_number fs.addresses_per_block_exponent ≠
      u16 (DIV_BY_POW_2_EXP pg
        (fs.block_size_exponent + fs.addresses_per_block_exponent)))
    (hpir : (tefs_map_page_to_root_index_address fs pg).1 < fs.block_size)
    (hbnz : fromLE (fs.dev.readBytes
        (DIV_BY_POW_2_EXP (DIV_BY_POW_2_EXP fs.state_section_bit 3)
            fs.page_size_exponent + 1)
        (u16 (MOD_BY_POW_2 (DIV_BY_POW_2_EXP fs.state_section_bit 3)
            fs.page_size)) 1) &&&
      POW_2_TO (7 - MOD_BY_POW_2 fs.state_section_bit 8) ≠ 0) :
    (tefs_write_resolve_child fs f pg).2.2 = none ∧
    (tefs_write_resolve_child fs f pg).2.1.child_index_block_address =
      MULT_BY_POW_2_EXP fs.state_section_bit fs.block_size_exponent +
        (1 + fs.state_section_size) ∧
    (tefs_write_resolve_child fs f pg).1.dev.log =
      ⟨f.root_index_block_address + (tefs_map_page_to_root_index_address fs pg).1,
        (tefs_map_page_to_root_index_address fs pg).2,
        toLE fs.address_size
          (MULT_BY_POW_2_EXP fs.state_section_bit fs.block_size_exponent +
            (1 + fs.state_section_size))⟩ ::
      ⟨DIV_BY_POW_2_EXP (DIV_BY_POW_2_EXP fs.state_section_bit 3)
          fs.page_size_exponent + 1,
        u16 (MOD_BY_POW_2 (DIV_BY_POW_2_EXP fs.state_section_bit 3) fs.page_size),
        [fromLE (fs.dev.readBytes
            (DIV_BY_POW_2_EXP (DIV_BY_POW_2_EXP fs.state_section_bit 3)
                fs.page_size_exponent + 1)
            (u16 (MOD_BY_POW_2 (DIV_BY_POW_2_EXP fs.state_section_bit 3)
                fs.page_size)) 1) &&&
          (255 - POW_2_TO (7 - MOD_BY_POW_2 fs.state_section_bit 8))]⟩ ::
      fs.dev.log := by
  obtain ⟨n, c, p, hres⟩ := tefs_reserve_device_block_bitset fs hEF hpool hbnz
  have hW : tefs_write_resolve_child fs f pg =
      ({ fs with
          dev := (device_write_num
            ((device_write (fs.dev.bumpReads 1)
              (DIV_BY_POW_2_EXP (DIV_BY_POW_2_EXP fs.state_section_bit 3)
                  fs.page_size_exponent + 1)
              (u16 (MOD_BY_POW_2 (DIV_BY_POW_2_EXP fs.state_section_bit 3)
                  fs.page_size))
              [fromLE (fs.dev.readBytes
                  (DIV_BY_POW_2_EXP (DIV_BY_POW_2_EXP fs.state_section_bit 3)
                      fs.page_size_exponent + 1)
                  (u16 (MOD_BY_POW_2 (DIV_BY_POW_2_EXP fs.state_section_bit 3)
                      fs.page_size)) 1) &&&
                (255 - POW_2_TO
                  (7 - MOD_BY_POW_2 fs.state_section_bit 8))]).bumpReads n)
            (f.root_index_block_address +
              (tefs_map_page_to_root_index_address fs pg).1)
            (tefs_map_page_to_root_index_address fs pg).2
            fs.address_size
            (MULT_BY_POW_2_EXP fs.state_section_bit fs.block_size_exponent +
              (1 + fs.state_section_size)))
          state_section_bit := c
          is_block_pool_empty := p },
        { f with child_index_block_address :=
            MULT_BY_POW_2_EXP fs.state_section_bit fs.block_size_exponent +
              (1 + fs.state_section_size) },
        none) := by
    simp only [tefs_write_resolve_child, if_pos hmm, if_neg (not_le.mpr hpir),
      if_neg (show ¬(f.is_file_size_consistent ≠ 0) by simp [hcons]),
      hres, Option.getD_some,
      if_neg (show ¬(TEFS_ERR_OK ≠ 0) by norm_num [TEFS_ERR_OK])]
  rw [hW]
  exact ⟨rfl, rfl, rfl⟩

/-- Witness for c5_reserve_precedes_publish at c5w_fs / c5_file: the
    reserved block is page 2 and the log shows the bitmap write before the
    pointer write into root-index page 101. -/
theorem c5_reserve_precedes_publish_witness :
    ErrorFree c5w_fs.dev ∧ c5w_fs.is_block_pool_empty = 0 ∧
    c5_file.is_file_size_consistent = 0 ∧
    ((tefs_write_resolve_child c5w_fs c5_file 9).2.2 = none ∧
      (tefs_write_resolve_child c5w_fs c5_file 9).2.1.child_index_block_address =
        MULT_BY_POW_2_EXP c5w_fs.state_section_bit c5w_fs.block_size_exponent +
          (1 + c5w_fs.state_section_size) ∧
      (tefs_write_resolve_child c5w_fs c5_file 9).1.dev.log =
        ⟨c5_file.root_index_block_address +
            (tefs_map_page_to_root_index_address c5w_fs 9).1,
          (tefs_map_page_to_root_index_address c5w_fs 9).2,
          toLE c5w_fs.address_size
            (MULT_BY_POW_2_EXP c5w_fs.state_section_bit
                c5w_fs.block_size_exponent +
              (1 + c5w_fs.state_section_size))⟩ ::
        ⟨DIV_BY_POW_2_EXP (DIV_BY_POW_2_EXP c5w_fs.state_section_bit 3)
            c5w_fs.page_size_exponent + 1,
          u16 (MOD_BY_POW_2 (DIV_BY_POW_2_EXP c5w_fs.state_section_bit 3)
            c5w_fs.page_size),
          [fromLE (c5w_fs.dev.readBytes
              (DIV_BY_POW_2_EXP (DIV_BY_POW_2_EXP c5w_fs.state_section_bit 3)
                  c5w_fs.page_size_exponent + 1)
              (u16 (MOD_BY_POW_2 (DIV_BY_POW_2_EXP c5w_fs.state_section_bit 3)
                  c5w_fs.page_size)) 1) &&&
            (255 - POW_2_TO (7 - MOD_BY_POW_2 c5w_fs.state_section_bit 8))]⟩ ::
        c5w_fs.dev.log) :=
  ⟨fun _ => rfl, rfl, rfl,
    c5_reserve_precedes_publish c5w_fs c5_file 9 (fun _ => rfl) rfl rfl
      (by decide) (by decide) (by decide)⟩

/-! ## Claim C1: the read-after-write round trip -/

/-- **C1** (refuted; code bug at tefs.c line 1048).  The claim says a write
    of length L at (file_page, byte_offset) that returns OK is read back
    bit-identically by tefs_read at the same coordinates.  In the concrete
    state c1_fs / c1_file, tefs_write 9 [7] 0 returns OK but stores the
    byte at page 300 — the first page of the resolved data block — because
    the slow path omits the MOD_BY_POW_2(file_page_address, block_size)
    page offset that the fast path (line 943) and tefs_read (line 1199)
    add; file page 9 is odd, so its bytes belong at page 301.  The
    subsequent tefs_read at the same coordinates returns OK with buffer
    [0], not the written [7]. -/
theorem c1_write_read_mismatch :
    c1_after_write.2.2 = TEFS_ERR_OK ∧
    c1_after_write.1.dev.mem 300 0 = 7 ∧
    c1_after_write.1.dev.mem 301 0 = 0 ∧
    c1_after_read.2.2.2 = TEFS_ERR_OK ∧
    c1_after_read.2.2.1 = some [0] ∧ (0 : ℕ) ≠ 7 := by
  refine ⟨rfl, rfl, rfl, rfl, rfl, by decide⟩

end TEFS
